import Mathlib

/-!
Verification of the Auralis fingerprint engine against its specification.

The development shallowly embeds the Rust sources over the real numbers:
`f64`/`f32` values become `ℝ`, slices become `List ℝ`, fallible functions
return `Except FingerprintError`.  The FFT is embedded as the unnormalized
forward DFT that `rustfft` computes.  Definitions follow the source files
`fingerprint-server/src/analysis/analyzer.rs`, `fingerprint-server/src/error.rs`,
`vendor/auralis-dsp/src/fingerprint_compute.rs`, `vendor/auralis-dsp/src/tempo.rs`,
`vendor/auralis-dsp/src/yin.rs` and the helper modules they call.
-/

open scoped BigOperators

/-- Error taxonomy of `fingerprint-server/src/error.rs` (`FingerprintError`). -/
inductive FingerprintError where
  | FileNotFound (msg : String)
  | UnsupportedFormat (msg : String)
  | DecodingError (msg : String)
  | InvalidAudio (msg : String)
  | AnalysisError (msg : String)
  | IoError (msg : String)
  | InternalError (msg : String)
deriving DecidableEq, Repr

/-- HTTP status assigned by `impl IntoResponse for FingerprintError`. -/
def FingerprintError.status : FingerprintError → ℕ
  | .FileNotFound _ => 404
  | .UnsupportedFormat _ => 415
  | .DecodingError _ => 400
  | .InvalidAudio _ => 400
  | .AnalysisError _ => 500
  | .IoError _ => 500
  | .InternalError _ => 500

namespace Analyzer

/-- `FFT_SIZE` from `analyzer.rs`. -/
def FFT_SIZE : ℕ := 2048

/-- `HOP_LENGTH` from `analyzer.rs`. -/
def HOP_LENGTH : ℕ := 512

/-- One Hann coefficient: `0.5 * (1 - cos(2π n / (FFT_SIZE - 1)))`. -/
noncomputable def hann (n : ℕ) : ℝ :=
  0.5 * (1 - Real.cos (2 * Real.pi * n / ((FFT_SIZE : ℝ) - 1)))

/-- The unnormalized forward DFT computed by `rustfft`'s `fft.process`:
`X[k] = Σ_n x[n]·exp(-2πi·k·n/N)`. -/
noncomputable def dft (x : List ℂ) : List ℂ :=
  (List.range x.length).map fun (k : ℕ) =>
    ((List.range x.length).map fun (n : ℕ) =>
      x.getD n 0 * Complex.exp (-(2 * Real.pi * k * n / x.length) * Complex.I)).sum

/-- Windowed complex input of `compute_fft_spectrum`: the first `FFT_SIZE`
samples multiplied by the Hann window. -/
noncomputable def windowedInput (samples : List ℝ) : List ℂ :=
  (samples.take FFT_SIZE).zipWith
    (fun s w => Complex.ofReal (s * w))
    ((List.range FFT_SIZE).map hann)

/-- Magnitudes extracted by `compute_fft_spectrum`: `(|X[k]|/FFT_SIZE).max(1e-10)`
over the full `FFT_SIZE` bins. -/
noncomputable def fftMagnitudes (samples : List ℝ) : List ℝ :=
  (dft (windowedInput samples)).map fun c => max (Complex.abs c / (FFT_SIZE : ℝ)) 1e-10

/-- Frequency bins `k · sample_rate / FFT_SIZE` for `k < FFT_SIZE/2`. -/
noncomputable def fftFreqs (sampleRate : ℕ) : List ℝ :=
  (List.range (FFT_SIZE / 2)).map fun (k : ℕ) => (k : ℝ) * (sampleRate : ℝ) / (FFT_SIZE : ℝ)

/-- `compute_fft_spectrum` of `analyzer.rs`: fails with `AnalysisError` when
fewer than `FFT_SIZE` samples are given, otherwise returns the linear
magnitude spectrum and the frequency bins. -/
noncomputable def computeFFTSpectrum (samples : List ℝ) (sampleRate : ℕ) :
    Except FingerprintError (List ℝ × List ℝ) :=
  if samples.length < FFT_SIZE then
    .error (.AnalysisError "Not enough samples for FFT")
  else
    .ok (fftMagnitudes samples, fftFreqs sampleRate)

/-- Rust `f64::clamp(lo, hi)`. -/
noncomputable def rclamp (x lo hi : ℝ) : ℝ := min (max x lo) hi

/-- Sum of `max(m, 0)` over the spectrum entries whose frequency bin lies in
`[low, high)`; the band integration used by `analyze_frequency` and
`analyze_dynamics`. -/
noncomputable def bandEnergy (freqs mag : List ℝ) (low high : ℝ) : ℝ :=
  ((freqs.zip mag).map fun p => if low ≤ p.1 ∧ p.1 < high then max p.2 0 else 0).sum

/-- Total spectral energy `Σ max(m, 0)` over the whole magnitude list. -/
noncomputable def totalEnergy (mag : List ℝ) : ℝ :=
  (mag.map fun m => max m 0).sum

/-- One band percentage of `analyze_frequency`: `100·band/total` when the
total energy is positive, clamped into `[0, 100]`. -/
noncomputable def bandPct (freqs mag : List ℝ) (low high : ℝ) : ℝ :=
  let pct := if 0 < totalEnergy mag then
    bandEnergy freqs mag low high / totalEnergy mag * 100 else 0
  min (max pct 0) 100

/-- The number of frequency bins `k < FFT_SIZE/2` whose frequency
`k·sr/FFT_SIZE` lies in `[lo, hi)` Hz, stated over the integers
(`lo·FFT_SIZE ≤ k·sr < hi·FFT_SIZE`). -/
def bandBinCount (sr lo hi : ℕ) : ℕ :=
  ((List.range 1024).filter fun k => decide (lo * 2048 ≤ k * sr ∧ k * sr < hi * 2048)).length

/-- `analyze_frequency` of `analyzer.rs`: the seven perceptual band
percentages. -/
noncomputable def analyzeFrequency (mag freqs : List ℝ) :
    Except FingerprintError (ℝ × ℝ × ℝ × ℝ × ℝ × ℝ × ℝ) :=
  .ok (bandPct freqs mag 20 60, bandPct freqs mag 60 250,
       bandPct freqs mag 250 500, bandPct freqs mag 500 2000,
       bandPct freqs mag 2000 4000, bandPct freqs mag 4000 6000,
       bandPct freqs mag 6000 20000)

/-- Root-mean-square `√(Σ s² / n)` of a buffer. -/
noncomputable def rmsOf (samples : List ℝ) : ℝ :=
  Real.sqrt ((samples.map fun s => s * s).sum / (samples.length : ℝ))

/-- Peak `fold(0, max)` of absolute values. -/
noncomputable def peakOf (samples : List ℝ) : ℝ :=
  (samples.map fun s => |s|).foldl max 0

/-- The unclamped LUFS approximation of `analyze_dynamics`:
`-0.691 + 10·log10(rms)` when `rms > 0`, else `-120`. -/
noncomputable def lufsOf (samples : List ℝ) : ℝ :=
  if 0 < rmsOf samples then -0.691 + 10 * Real.logb 10 (rmsOf samples) else -120

/-- The unclamped crest factor of `analyze_dynamics`:
`20·log10(max(peak/rms, 1))` when `rms > 0`, else 0. -/
noncomputable def crestOf (samples : List ℝ) : ℝ :=
  if 0 < rmsOf samples then 20 * Real.logb 10 (max (peakOf samples / rmsOf samples) 1) else 0

/-- The unclamped bass/mid dB ratio of `analyze_dynamics`. -/
noncomputable def bmrOf (mag freqs : List ℝ) : ℝ :=
  let bassE := bandEnergy freqs mag 60 250
  let midE := bandEnergy freqs mag 500 2000
  if 0 < midE then 20 * Real.logb 10 (max (bassE / midE) 0.01) else 0

/-- `analyze_dynamics` of `analyzer.rs`: approximate LUFS, crest factor in dB,
and bass/mid dB ratio, each clamped to its range. -/
noncomputable def analyzeDynamics (samples mag freqs : List ℝ) :
    Except FingerprintError (ℝ × ℝ × ℝ) :=
  .ok (rclamp (lufsOf samples) (-120) 0, rclamp (crestOf samples) 0 50,
       rclamp (bmrOf mag freqs) (-40) 40)

/-- Frame-to-frame spectral flux `Σ max(curr - prev, 0)` over zipped spectra. -/
noncomputable def fluxOf (spectrum prev : List ℝ) : ℝ :=
  ((spectrum.zip prev).map fun p => max (p.1 - p.2) 0).sum

/-- The frame loop of `estimate_tempo`: walks up to `nLeft` further frames at
hop 512, breaking at the first frame shorter than `FFT_SIZE`, pushing each
frame's spectral flux and sliding the previous spectrum. -/
noncomputable def fluxLoop (samples : List ℝ) (sampleRate : ℕ) :
    ℕ → ℕ → List ℝ → List ℝ → Except FingerprintError (List ℝ)
  | 0, _, _, acc => .ok acc
  | nLeft + 1, idx, prev, acc =>
    let start := idx * HOP_LENGTH
    let stop := min (start + FFT_SIZE) samples.length
    if stop - start < FFT_SIZE then .ok acc
    else
      match computeFFTSpectrum ((samples.drop start).take (stop - start)) sampleRate with
      | .error e => .error e
      | .ok (spectrum, _) =>
        fluxLoop samples sampleRate nLeft (idx + 1) spectrum (acc ++ [fluxOf spectrum prev])

/-- `estimate_tempo` of `analyzer.rs`: spectral-flux frame counting; returns
120 when fewer than two hop frames or fewer than two flux values or the mean
flux is not positive, otherwise `(flux_count / duration_sec) · 60` clamped to
`[40, 200]`. -/
noncomputable def estimateTempo (samples : List ℝ) (sampleRate : ℕ) :
    Except FingerprintError ℝ :=
  let nFrames := samples.length / HOP_LENGTH
  if nFrames < 2 then .ok 120
  else
    match fluxLoop samples sampleRate nFrames 0 (List.replicate (FFT_SIZE / 2) 0) [] with
    | .error e => .error e
    | .ok flux =>
      if flux.length < 2 then .ok 120
      else
        let meanFlux := flux.sum / (flux.length : ℝ)
        if 0 < meanFlux then
          let durationSec := (samples.length : ℝ) / (sampleRate : ℝ)
          .ok (rclamp ((flux.length : ℝ) / durationSec * 60) 40 200)
        else .ok 120

/-- The pure value of the `estimate_tempo` frame loop. -/
noncomputable def fluxPure (samples : List ℝ) : ℕ → ℕ → List ℝ → List ℝ
  | 0, _, _ => []
  | nLeft + 1, idx, prev =>
    let start := idx * HOP_LENGTH
    let stop := min (start + FFT_SIZE) samples.length
    if stop - start < FFT_SIZE then []
    else
      let spectrum := fftMagnitudes ((samples.drop start).take (stop - start))
      fluxOf spectrum prev :: fluxPure samples nLeft (idx + 1) spectrum

/-- Number of full `FFT_SIZE` frames available at hop `HOP_LENGTH`. -/
def fluxFrameBound (len : ℕ) : ℕ :=
  if FFT_SIZE ≤ len then (len - FFT_SIZE) / HOP_LENGTH + 1 else 0

/-- The value `estimate_tempo` returns, as a function of the input length and
the sample rate only. -/
noncomputable def tempoValue (len sr : ℕ) : ℝ :=
  if len / HOP_LENGTH < 2 then 120
  else
    let fl := min (len / HOP_LENGTH) (fluxFrameBound len)
    if fl < 2 then 120
    else rclamp ((fl : ℝ) / ((len : ℝ) / (sr : ℝ)) * 60) 40 200

/-- Splits a list into consecutive chunks of size `n` (Rust `slice::chunks`);
the final chunk may be shorter.  Defined with a length fuel so that the
recursion is structural. -/
def chunksGo (n : ℕ) : ℕ → List ℝ → List (List ℝ)
  | 0, _ => []
  | _, [] => []
  | fuel + 1, l => l.take n :: chunksGo n fuel (l.drop n)

/-- Rust `samples.chunks(n)` as a list of chunks. -/
def chunksList (l : List ℝ) (n : ℕ) : List (List ℝ) := chunksGo n l.length l

/-- The rhythm-stability value of `analyze_temporal`: `1/(1+cv)` of the
100 ms RMS frames, clamped to `[0, 1]` (0.5 for fewer than two frames). -/
noncomputable def rhythmStabilityOf (samples : List ℝ) (sampleRate : ℕ) : ℝ :=
  let rmsFrames := (chunksList samples (sampleRate / 10)).map rmsOf
  if 1 < rmsFrames.length then
    let mean := rmsFrames.sum / (rmsFrames.length : ℝ)
    let variance := (rmsFrames.map fun r => (r - mean) ^ 2).sum / (rmsFrames.length : ℝ)
    let cv := Real.sqrt variance / (mean + 1e-10)
    min (max (1 / (1 + cv)) 0) 1
  else 0.5

/-- The transient-density value of `analyze_temporal`: thresholded local
maxima normalized to a per-second rate, clamped to `[0, 1]`. -/
noncomputable def transientDensityOf (samples : List ℝ) (sampleRate : ℕ) : ℝ :=
  let threshold := peakOf samples * 0.5
  let peaks : ℝ :=
    ((List.range (samples.length - 2)).map fun j =>
      let i := j + 1
      if threshold < |samples.getD i 0| ∧ |samples.getD (i - 1) 0| < |samples.getD i 0| ∧
          |samples.getD (i + 1) 0| < |samples.getD i 0| then (1 : ℝ) else 0).sum
  min (max (peaks / (samples.length : ℝ) * (sampleRate : ℝ) * 100) 0) 1

/-- The silence-ratio value of `analyze_temporal`: 1 below -60 dB RMS, else
`(-60 - rms_db)/(-60)` clamped to `[0, 1]`; 1 for an all-zero buffer. -/
noncomputable def silenceRatioOf (samples : List ℝ) : ℝ :=
  if 0 < rmsOf samples then
    let silenceLevel := 20 * Real.logb 10 (rmsOf samples)
    if silenceLevel < -60 then 1
    else min (max ((-60 - silenceLevel) / (-60)) 0) 1
  else 1

/-- `analyze_temporal` of `analyzer.rs`: tempo (clamped to `[40, 200]`),
rhythm stability, transient density, and silence ratio. -/
noncomputable def analyzeTemporal (samples : List ℝ) (sampleRate : ℕ) :
    Except FingerprintError (ℝ × ℝ × ℝ × ℝ) :=
  match estimateTempo samples sampleRate with
  | .error e => .error e
  | .ok tempoBpm =>
    .ok (rclamp tempoBpm 40 200, rhythmStabilityOf samples sampleRate,
         transientDensityOf samples sampleRate, silenceRatioOf samples)

/-- The magnitudes (first `FFT_SIZE/2` bins) of one STFT frame of
`compute_stft_spectral_analysis`: the slice starting at `start`, Hann
windowed, zero-padded to `FFT_SIZE`, transformed, floored at `1e-10`. -/
noncomputable def stftFrameMags (samples : List ℝ) (start : ℕ) : List ℝ :=
  let stop := min (start + FFT_SIZE) samples.length
  let input := ((samples.drop start).take (stop - start)).zipWith
    (fun s w => Complex.ofReal (s * w)) ((List.range FFT_SIZE).map hann)
  let padded := input ++ List.replicate (FFT_SIZE - input.length) 0
  ((dft padded).take (FFT_SIZE / 2)).map fun c => max (Complex.abs c / (FFT_SIZE : ℝ)) 1e-10

/-- The frame starts processed by `compute_stft_spectral_analysis`: multiples
of `HOP_LENGTH` below `samples.len()`, stopping at the first frame with fewer
than `FFT_SIZE/2` samples remaining. -/
def stftStarts (len : ℕ) : List ℕ :=
  (((List.range ((len + HOP_LENGTH - 1) / HOP_LENGTH)).map (· * HOP_LENGTH)).takeWhile
    fun start => start + FFT_SIZE / 2 ≤ len)

/-- The rolloff loop of `analyze_spectral_stats`: the first bin where the
cumulative energy exceeds 95% of the total, as a fraction of `FFT_SIZE/2`;
0.5 when the loop never breaks. -/
noncomputable def rolloffLoop : List ℝ → ℝ → ℕ → ℝ → ℝ
  | [], _, _, _ => 0.5
  | e :: rest, total, k, cumsum =>
    if total * 0.95 < cumsum + e then min ((k : ℝ) / ((FFT_SIZE : ℝ) / 2)) 1
    else rolloffLoop rest total (k + 1) (cumsum + e)

/-- The spectral-centroid value of `analyze_spectral_stats`. -/
noncomputable def centroidOf (avgSpectrum : List ℝ) : ℝ :=
  let weightedSum := (avgSpectrum.enum.map fun p => (p.1 : ℝ) * p.2).sum
  min (weightedSum / avgSpectrum.sum / ((FFT_SIZE : ℝ) / 2)) 1

/-- The spectral-flatness value of `analyze_spectral_stats` (product-based
geometric mean over arithmetic mean). -/
noncomputable def flatnessOf (avgSpectrum : List ℝ) : ℝ :=
  let geometricMean :=
    (avgSpectrum.foldl (fun acc x => acc * (x + 1e-10)) 1) ^ ((1 : ℝ) / (avgSpectrum.length : ℝ))
  let arithmeticMean := avgSpectrum.sum / (avgSpectrum.length : ℝ)
  if 0 < arithmeticMean then max (min (geometricMean / arithmeticMean) 1) 0
  else 0.5

/-- `analyze_spectral_stats` of `analyzer.rs`: centroid, rolloff, flatness of
the averaged spectrum (defaults 0.5 on empty or zero-energy input). -/
noncomputable def analyzeSpectralStats (avgSpectrum : List ℝ) :
    Except FingerprintError (ℝ × ℝ × ℝ) :=
  if avgSpectrum = [] then .ok (0.5, 0.5, 0.5)
  else if avgSpectrum.sum = 0 then .ok (0.5, 0.5, 0.5)
  else .ok (centroidOf avgSpectrum, rolloffLoop avgSpectrum avgSpectrum.sum 0 0,
            flatnessOf avgSpectrum)

/-- The per-frame magnitude spectra aggregated by
`compute_stft_spectral_analysis`. -/
noncomputable def stftFrames (samples : List ℝ) : List (List ℝ) :=
  (stftStarts samples.length).map (stftFrameMags samples)

/-- The running elementwise sum of the frame spectra. -/
noncomputable def sumSpectrumOf (samples : List ℝ) : List ℝ :=
  (stftFrames samples).foldl (fun acc f => acc.zipWith (· + ·) f)
    (List.replicate (FFT_SIZE / 2) 0)

/-- The averaged spectrum of `compute_stft_spectral_analysis`. -/
noncomputable def avgSpectrumOf (samples : List ℝ) : List ℝ :=
  (sumSpectrumOf samples).map (· / ((stftFrames samples).length : ℝ))

/-- `compute_stft_spectral_analysis` of `analyzer.rs`: accumulates the
running-average magnitude spectrum over hop frames and derives the three
spectral statistics; defaults `(0.5, 0.5, 0.5)` when no frame was seen. -/
noncomputable def computeStftSpectralAnalysis (samples : List ℝ) (_sampleRate : ℕ) :
    Except FingerprintError (ℝ × ℝ × ℝ) :=
  if (stftFrames samples).length = 0 then .ok (0.5, 0.5, 0.5)
  else analyzeSpectralStats (avgSpectrumOf samples)

/-- The harmonic-ratio value of `analyze_harmonic`: energy at strict spectral
local maxima over total energy. -/
noncomputable def harmonicRatioOf (magSpec : List ℝ) : ℝ :=
  let harmonicEnergy : ℝ :=
    ((List.range (magSpec.length - 2)).map fun j =>
      let i := j + 1
      if magSpec.getD (i - 1) 0 < magSpec.getD i 0 ∧ magSpec.getD (i + 1) 0 < magSpec.getD i 0
      then max (magSpec.getD i 0) 0 else 0).sum
  if 0 < totalEnergy magSpec then min (harmonicEnergy / totalEnergy magSpec) 1 else 0

/-- The normalized chroma-energy value of `analyze_harmonic`: energy in the
100 Hz - 5 kHz bin region over total energy. -/
noncomputable def chromaNormOf (magSpec : List ℝ) (sampleRate : ℕ) : ℝ :=
  let chromaEnergy :=
    (((magSpec.take (Nat.floor (5000 * (magSpec.length : ℝ) / (sampleRate : ℝ)))).drop
      (Nat.floor (100 * (magSpec.length : ℝ) / (sampleRate : ℝ)))).map fun m => max m 0).sum
  if 0 < totalEnergy magSpec then min (chromaEnergy / totalEnergy magSpec) 1 else 0

/-- `analyze_harmonic` of `analyzer.rs` (the simplified in-server variant):
spectral-peak harmonic ratio, constant pitch stability 0.5, and tonal-region
chroma energy. -/
noncomputable def analyzeHarmonic (samples : List ℝ) (sampleRate : ℕ) :
    Except FingerprintError (ℝ × ℝ × ℝ) :=
  match computeFFTSpectrum samples sampleRate with
  | .error e => .error e
  | .ok (magSpec, _) =>
    .ok (min (max (harmonicRatioOf magSpec) 0) 1, min (max (0.5 : ℝ) 0) 1,
         min (max (chromaNormOf magSpec sampleRate) 0) 1)

/-- The per-100ms dynamic-range-variation value of `analyze_variation`. -/
noncomputable def dynamicRangeVariationOf (samples : List ℝ) (sampleRate : ℕ) : ℝ :=
  let crestFactors := (chunksList samples (sampleRate / 10)).map fun c =>
    if 0 < rmsOf c then peakOf c / rmsOf c else 1
  if 1 < crestFactors.length then
    let mean := crestFactors.sum / (crestFactors.length : ℝ)
    let variance := (crestFactors.map fun c => (c - mean) ^ 2).sum / (crestFactors.length : ℝ)
    min (Real.sqrt variance / (mean + 1e-10)) 1
  else 0

/-- The per-100ms loudness-variation value of `analyze_variation`. -/
noncomputable def loudnessVariationStdOf (samples : List ℝ) (sampleRate : ℕ) : ℝ :=
  let loudnessValues := (chunksList samples (sampleRate / 10)).map fun c =>
    if 0 < rmsOf c then 20 * Real.logb 10 (rmsOf c) else -120
  if 1 < loudnessValues.length then
    let mean := loudnessValues.sum / (loudnessValues.length : ℝ)
    let variance := (loudnessValues.map fun l => (l - mean) ^ 2).sum / (loudnessValues.length : ℝ)
    max (Real.sqrt variance) 0
  else 0

/-- The per-100ms peak-consistency value of `analyze_variation`. -/
noncomputable def peakConsistencyOf (samples : List ℝ) (sampleRate : ℕ) : ℝ :=
  let peaksList := (chunksList samples (sampleRate / 10)).map peakOf
  if 1 < peaksList.length then
    let mean := peaksList.sum / (peaksList.length : ℝ)
    let variance := (peaksList.map fun p => (p - mean) ^ 2).sum / (peaksList.length : ℝ)
    let cv := Real.sqrt variance / (mean + 1e-10)
    min (max (1 / (1 + cv)) 0) 1
  else 0.5

/-- `analyze_variation` of `analyzer.rs`: per-100ms-frame crest variation,
loudness standard deviation, and peak consistency. -/
noncomputable def analyzeVariation (samples : List ℝ) (sampleRate : ℕ) :
    Except FingerprintError (ℝ × ℝ × ℝ) :=
  .ok (min (max (dynamicRangeVariationOf samples sampleRate) 0) 1,
       min (max (loudnessVariationStdOf samples sampleRate) 0) 10,
       min (max (peakConsistencyOf samples sampleRate) 0) 1)

/-- `analyze_stereo` of `analyzer.rs`: the mono buffer carries no stereo
information, so width 0 and correlation 1. -/
noncomputable def analyzeStereo (_samples : List ℝ) : Except FingerprintError (ℝ × ℝ) :=
  .ok (0, 1)

end Analyzer

/-- The 25-dimensional fingerprint record of
`fingerprint-server/src/models/fingerprint.rs`. -/
structure Fingerprint where
  sub_bass_pct : ℝ
  bass_pct : ℝ
  low_mid_pct : ℝ
  mid_pct : ℝ
  upper_mid_pct : ℝ
  presence_pct : ℝ
  air_pct : ℝ
  lufs : ℝ
  crest_db : ℝ
  bass_mid_ratio : ℝ
  tempo_bpm : ℝ
  rhythm_stability : ℝ
  transient_density : ℝ
  silence_ratio : ℝ
  spectral_centroid : ℝ
  spectral_rolloff : ℝ
  spectral_flatness : ℝ
  harmonic_ratio : ℝ
  pitch_stability : ℝ
  chroma_energy : ℝ
  dynamic_range_variation : ℝ
  loudness_variation_std : ℝ
  peak_consistency : ℝ
  stereo_width : ℝ
  phase_correlation : ℝ

namespace Analyzer

/-- `analyze_fingerprint` of `analyzer.rs`: validates non-emptiness, runs all
component analyses in source order and assembles the 25 fields. -/
noncomputable def analyzeFingerprint (samples : List ℝ) (sampleRate : ℕ) :
    Except FingerprintError Fingerprint :=
  if samples = [] then .error (.InvalidAudio "No samples to analyze")
  else
    match computeFFTSpectrum samples sampleRate with
    | .error e => .error e
    | .ok (magnitudeSpec, freqs) =>
    match computeStftSpectralAnalysis samples sampleRate with
    | .error e => .error e
    | .ok specAnalysis =>
    match analyzeFrequency magnitudeSpec freqs with
    | .error e => .error e
    | .ok freqAnalysis =>
    match analyzeDynamics samples magnitudeSpec freqs with
    | .error e => .error e
    | .ok dynAnalysis =>
    match analyzeTemporal samples sampleRate with
    | .error e => .error e
    | .ok tempAnalysis =>
    match analyzeHarmonic samples sampleRate with
    | .error e => .error e
    | .ok harmAnalysis =>
    match analyzeVariation samples sampleRate with
    | .error e => .error e
    | .ok varAnalysis =>
    match analyzeStereo samples with
    | .error e => .error e
    | .ok stereoAnalysis =>
    .ok {
      sub_bass_pct := freqAnalysis.1
      bass_pct := freqAnalysis.2.1
      low_mid_pct := freqAnalysis.2.2.1
      mid_pct := freqAnalysis.2.2.2.1
      upper_mid_pct := freqAnalysis.2.2.2.2.1
      presence_pct := freqAnalysis.2.2.2.2.2.1
      air_pct := freqAnalysis.2.2.2.2.2.2
      lufs := dynAnalysis.1
      crest_db := dynAnalysis.2.1
      bass_mid_ratio := dynAnalysis.2.2
      tempo_bpm := tempAnalysis.1
      rhythm_stability := tempAnalysis.2.1
      transient_density := tempAnalysis.2.2.1
      silence_ratio := tempAnalysis.2.2.2
      spectral_centroid := specAnalysis.1
      spectral_rolloff := specAnalysis.2.1
      spectral_flatness := specAnalysis.2.2
      harmonic_ratio := harmAnalysis.1
      pitch_stability := harmAnalysis.2.1
      chroma_energy := harmAnalysis.2.2
      dynamic_range_variation := varAnalysis.1
      loudness_variation_std := varAnalysis.2.1
      peak_consistency := varAnalysis.2.2
      stereo_width := stereoAnalysis.1
      phase_correlation := stereoAnalysis.2 }

end Analyzer

namespace SpectralFeatures

/-- `compute_spectral_centroid` of `spectral_features.rs`: power-weighted mean
frequency in Hz (0 on empty/mismatched/low-power input). -/
noncomputable def computeSpectralCentroid (psd freqs : List ℝ) : ℝ :=
  if psd = [] ∨ psd.length ≠ freqs.length then 0
  else
    let totalPower := psd.sum
    if totalPower < 1e-10 then 0
    else
      let weightedSum := ((psd.zip freqs).map fun p => p.1 * p.2).sum
      weightedSum / totalPower

/-- The cumulative scan of `compute_spectral_rolloff`: the first frequency at
which the running power reaches `threshold`, else the supplied fallback. -/
noncomputable def rolloffScan : List (ℝ × ℝ) → ℝ → ℝ → ℝ → ℝ
  | [], _, _, fallback => fallback
  | p :: rest, threshold, cumulative, fallback =>
    let c := cumulative + p.1
    if threshold ≤ c then p.2 else rolloffScan rest threshold c fallback

/-- `compute_spectral_rolloff` of `spectral_features.rs`: frequency containing
the given fraction of the total power, in Hz. -/
noncomputable def computeSpectralRolloff (psd freqs : List ℝ) (rolloff : ℝ) : ℝ :=
  if psd = [] ∨ psd.length ≠ freqs.length then 0
  else
    let totalPower := psd.sum
    if totalPower < 1e-10 then 0
    else rolloffScan (psd.zip freqs) (rolloff * totalPower) 0 (freqs.getD (freqs.length - 1) 0)

/-- `compute_spectral_flatness` of `spectral_features.rs`: geometric over
arithmetic mean of the above-epsilon PSD entries, clamped to `[0, 1]`. -/
noncomputable def computeSpectralFlatness (psd : List ℝ) : ℝ :=
  if psd = [] then 0
  else
    let nonzeroPsd := psd.filter fun p => 1e-10 < p
    if nonzeroPsd = [] then 0
    else
      let logSum := (nonzeroPsd.map Real.log).sum
      let geometricMean := Real.exp (logSum / (nonzeroPsd.length : ℝ))
      let arithmeticMean := nonzeroPsd.sum / (nonzeroPsd.length : ℝ)
      if arithmeticMean < 1e-10 then 0
      else Analyzer.rclamp (geometricMean / arithmeticMean) 0 1

/-- `audio_to_freq_domain` of `spectral_features.rs`: zero-padded Hann-windowed
FFT at the next power of two, returning frequencies and the half-spectrum PSD
`|X[k]|²/fft_size²`. -/
noncomputable def audioToFreqDomain (audio : List ℝ) (sampleRate : ℕ) :
    List ℝ × List ℝ :=
  if audio = [] then ([], [])
  else
    let fftSize := 2 ^ Nat.clog 2 audio.length
    let n := (audio.length : ℝ)
    let fftInput := (List.range fftSize).map fun i =>
      if i < audio.length then
        Complex.ofReal (audio.getD i 0 * (0.5 * (1 - Real.cos (2 * Real.pi * i / n))))
      else 0
    let psd := (Analyzer.dft fftInput).map fun c => Complex.normSq c / ((fftSize : ℝ)) ^ 2
    let freqs := (List.range (fftSize / 2)).map fun i => (i : ℝ) * (sampleRate : ℝ) / (fftSize : ℝ)
    (freqs, psd.take (fftSize / 2))

end SpectralFeatures

namespace FrequencyAnalysis

/-- The seven-band record of `frequency_analysis.rs` (`FrequencyBands`). -/
structure FrequencyBands where
  sub_bass : ℝ
  bass : ℝ
  low_mid : ℝ
  mid : ℝ
  upper_mid : ℝ
  presence : ℝ
  air : ℝ

/-- `hz_to_bin` of `frequency_analysis.rs` (no upper clamp). -/
noncomputable def hzToBin (hz : ℝ) (sampleRate fftSize : ℕ) : ℕ :=
  Nat.floor (hz * (fftSize : ℝ) / (sampleRate : ℝ))

/-- `compute_psd` of `frequency_analysis.rs`: `(|X[k]|²/len²).max(1e-10)` over
the whole spectrum. -/
noncomputable def computePsd (spectrum : List ℂ) : List ℝ :=
  spectrum.map fun c => max (Complex.normSq c / ((spectrum.length : ℝ)) ^ 2) 1e-10

/-- `integrate_power_range` of `frequency_analysis.rs`. -/
noncomputable def integratePowerRange (psd : List ℝ) (startBin endBin : ℕ) : ℝ :=
  if psd.length ≤ startBin then 0
  else ((psd.drop startBin).take (min endBin psd.length - startBin)).sum

/-- `compute_frequency_distribution` of `frequency_analysis.rs`: Hann-windowed
power FFT of the first 30 s, integrated over seven bands and normalized to sum
1 (uniform `1/7` on empty or zero-energy input). -/
noncomputable def computeFrequencyDistribution (audio : List ℝ) (sampleRate : ℕ) :
    FrequencyBands :=
  if audio = [] then
    { sub_bass := 1 / 7, bass := 1 / 7, low_mid := 1 / 7, mid := 1 / 7,
      upper_mid := 1 / 7, presence := 1 / 7, air := 1 / 7 }
  else
    let analysisLen := min (Nat.floor ((30 : ℝ) * (sampleRate : ℝ))) audio.length
    let analysisAudio := audio.take analysisLen
    let fftSize := 2 ^ Nat.clog 2 analysisLen
    let fftInput := (List.range fftSize).map fun i =>
      if i < analysisAudio.length then
        Complex.ofReal (analysisAudio.getD i 0 *
          (0.5 * (1 - Real.cos (2 * Real.pi * i / (fftSize : ℝ)))))
      else 0
    let psd := computePsd (Analyzer.dft fftInput)
    let nyquist := (sampleRate : ℝ) / 2
    let binAt := fun (freq : ℝ) => hzToBin (min freq nyquist) sampleRate fftSize
    let d := fun (lo hi : ℝ) => integratePowerRange psd (binAt lo) (binAt hi)
    let raw : List ℝ := [d 20 60, d 60 250, d 250 500, d 500 2000,
      d 2000 4000, d 4000 8000, d 8000 20000]
    let total := raw.sum
    let dist := if 0 < total then raw.map (· / total) else List.replicate 7 (1 / 7)
    { sub_bass := dist.getD 0 0, bass := dist.getD 1 0, low_mid := dist.getD 2 0,
      mid := dist.getD 3 0, upper_mid := dist.getD 4 0, presence := dist.getD 5 0,
      air := dist.getD 6 0 }

end FrequencyAnalysis

namespace VariationAnalysis

/-- `compute_rms` of `variation_analysis.rs`. -/
noncomputable def computeRms (signal : List ℝ) : ℝ :=
  if signal = [] then 0
  else Real.sqrt ((signal.map fun s => s * s).sum / (signal.length : ℝ))

/-- `compute_dynamic_range_db` of `variation_analysis.rs`: peak over smallest
above-epsilon magnitude, in dB (0 on silent input). -/
noncomputable def computeDynamicRangeDb (signal : List ℝ) : ℝ :=
  if signal = [] then 0
  else
    let maxAbs := (signal.map fun s => |s|).foldl max 0
    match (signal.map fun s => |s|).filter (fun s => 1e-10 < s) with
    | [] => 0
    | h :: t =>
      if maxAbs < 1e-10 then 0
      else 20 * Real.logb 10 (maxAbs / t.foldl min h)

/-- `estimate_lufs` of `variation_analysis.rs` (calibration `+1.0`). -/
noncomputable def estimateLufs (signal : List ℝ) : ℝ :=
  let rms := computeRms signal
  if rms < 1e-10 then -120
  else min (max (20 * Real.logb 10 rms + 1) (-120)) 0

/-- `frame_analysis` of `variation_analysis.rs`: applies a metric to chunks of
`max(1, frame_duration·sample_rate)` samples. -/
noncomputable def frameAnalysis (signal : List ℝ) (sampleRate : ℕ) (frameDuration : ℝ)
    (metricFn : List ℝ → ℝ) : List ℝ :=
  (Analyzer.chunksList signal (max (Nat.floor (frameDuration * (sampleRate : ℝ))) 1)).map metricFn

/-- `compute_std_dev` of `variation_analysis.rs` (0 for fewer than two values). -/
noncomputable def computeStdDev (values : List ℝ) : ℝ :=
  if values.length < 2 then 0
  else
    let mean := values.sum / (values.length : ℝ)
    Real.sqrt ((values.map fun v => (v - mean) ^ 2).sum / (values.length : ℝ))

/-- `compute_cv` of `variation_analysis.rs`. -/
noncomputable def computeCv (values : List ℝ) : ℝ :=
  if values = [] then 0
  else
    let mean := values.sum / (values.length : ℝ)
    if |mean| < 1e-10 then 0
    else computeStdDev values / |mean|

/-- `compute_dynamic_range_variation` of `variation_analysis.rs`: std-dev of
per-second dynamic range, clamped to `[0, 50]`. -/
noncomputable def computeDynamicRangeVariation (audio : List ℝ) (sampleRate : ℕ) : ℝ :=
  if audio = [] then 0
  else
    let dynamicRanges := frameAnalysis audio sampleRate 1 computeDynamicRangeDb
    if dynamicRanges = [] then 0
    else Analyzer.rclamp (computeStdDev dynamicRanges) 0 50

/-- `compute_loudness_variation` of `variation_analysis.rs`: std-dev of
per-second LUFS, clamped to `[0, 50]`. -/
noncomputable def computeLoudnessVariation (audio : List ℝ) (sampleRate : ℕ) : ℝ :=
  if audio = [] then 0
  else
    let loudnessValues := frameAnalysis audio sampleRate 1 estimateLufs
    if loudnessValues = [] then 0
    else Analyzer.rclamp (computeStdDev loudnessValues) 0 50

/-- `compute_peak_consistency` of `variation_analysis.rs`: coefficient of
variation of per-second peaks, clamped to `[0, 2]`. -/
noncomputable def computePeakConsistency (audio : List ℝ) (sampleRate : ℕ) : ℝ :=
  if audio = [] then 0
  else
    let peakLevels := frameAnalysis audio sampleRate 1
      (fun frame => (frame.map fun s => |s|).foldl max 0)
    if peakLevels = [] then 0
    else Analyzer.rclamp (computeCv peakLevels) 0 2

end VariationAnalysis

namespace StereoAnalysis

/-- `compute_energy` of `stereo_analysis.rs` (RMS). -/
noncomputable def computeEnergy (signal : List ℝ) : ℝ :=
  if signal = [] then 0
  else Real.sqrt ((signal.map fun s => s * s).sum / (signal.length : ℝ))

/-- `compute_stereo_width` of `stereo_analysis.rs`: side energy over total
mid+side energy, clamped to `[0, 1]`. -/
noncomputable def computeStereoWidth (left right : List ℝ) : ℝ :=
  if left = [] ∨ left.length ≠ right.length then 0
  else
    let mid := (left.zip right).map fun p => (p.1 + p.2) * 0.5
    let side := (left.zip right).map fun p => (p.1 - p.2) * 0.5
    let midEnergy := computeEnergy mid
    let sideEnergy := computeEnergy side
    let total := midEnergy + sideEnergy
    if total < 1e-10 then 0
    else Analyzer.rclamp (sideEnergy / total) 0 1

/-- `normalize_signal` of `stereo_analysis.rs`: zero mean, unit variance. -/
noncomputable def normalizeSignal (signal : List ℝ) : List ℝ :=
  if signal = [] then []
  else
    let mean := signal.sum / (signal.length : ℝ)
    let variance := (signal.map fun s => (s - mean) ^ 2).sum / (signal.length : ℝ)
    let stdDev := max (Real.sqrt variance) 1e-10
    signal.map fun s => (s - mean) / stdDev

/-- `compute_phase_correlation` of `stereo_analysis.rs`: Pearson-style
correlation of the normalized channels, clamped to `[-1, 1]`. -/
noncomputable def computePhaseCorrelation (left right : List ℝ) : ℝ :=
  if left = [] ∨ left.length ≠ right.length then 1
  else
    let leftNorm := normalizeSignal left
    let rightNorm := normalizeSignal right
    let pairs := leftNorm.zip rightNorm
    let sumProduct := (pairs.map fun p => p.1 * p.2).sum
    let sumLeft2 := (pairs.map fun p => p.1 * p.1).sum
    let sumRight2 := (pairs.map fun p => p.2 * p.2).sum
    let denominator := Real.sqrt (sumLeft2 * sumRight2)
    if denominator < 1e-10 then 1
    else Analyzer.rclamp (sumProduct / denominator) (-1) 1

end StereoAnalysis

/-- The 25-field fingerprint record of `fingerprint_compute.rs`
(`AudioFingerprint`). -/
structure AudioFingerprint where
  sub_bass : ℝ
  bass : ℝ
  low_mid : ℝ
  mid : ℝ
  upper_mid : ℝ
  presence : ℝ
  air : ℝ
  lufs : ℝ
  crest_db : ℝ
  bass_mid_ratio : ℝ
  tempo_bpm : ℝ
  rhythm_stability : ℝ
  transient_density : ℝ
  silence_ratio : ℝ
  spectral_centroid : ℝ
  spectral_rolloff : ℝ
  spectral_flatness : ℝ
  harmonic_ratio : ℝ
  pitch_stability : ℝ
  chroma_energy : ℝ
  dynamic_range_variation : ℝ
  loudness_variation : ℝ
  peak_consistency : ℝ
  stereo_width : ℝ
  phase_correlation : ℝ

namespace FingerprintCompute

/-- `compute_rms` of `fingerprint_compute.rs`. -/
noncomputable def computeRms (signal : List ℝ) : ℝ :=
  if signal = [] then 0
  else Real.sqrt ((signal.map fun s => s * s).sum / (signal.length : ℝ))

/-- `compute_crest_factor` of `fingerprint_compute.rs`: `20·log10(peak/rms)`
with no upper clamp (0 on empty or near-silent input). -/
noncomputable def computeCrestFactor (signal : List ℝ) : ℝ :=
  if signal = [] then 0
  else
    let peak := (signal.map fun s => |s|).foldl max 0
    let rms := computeRms signal
    if rms < 1e-10 then 0
    else 20 * Real.logb 10 (peak / rms)

/-- `estimate_lufs` of `fingerprint_compute.rs` (calibration `-0.7`). -/
noncomputable def estimateLufs (signal : List ℝ) : ℝ :=
  let rms := computeRms signal
  if rms < 1e-10 then -120
  else min (max (20 * Real.logb 10 rms - 0.7) (-120)) 0

/-- Rust `usize::next_power_of_two`. -/
def nextPowerOfTwo (n : ℕ) : ℕ := 2 ^ Nat.clog 2 n

/-- `hz_to_bin` of `fingerprint_compute.rs` (clamped below `fft_size`). -/
noncomputable def hzToBin (hz : ℝ) (sampleRate fftSize : ℕ) : ℕ :=
  min (Nat.floor (hz * (fftSize : ℝ) / (sampleRate : ℝ))) (fftSize - 1)

/-- `compute_bass_mid_ratio` of `fingerprint_compute.rs`: fraction of
low-spectrum power below 200 Hz relative to power below 2 kHz, in `[0, 1]`
(0.5 on empty or near-silent input).  Note this is a ratio, not a dB value. -/
noncomputable def computeBassMidRatio (audio : List ℝ) (sampleRate : ℕ) : ℝ :=
  if audio = [] then 0.5
  else
    let fftSize := min (nextPowerOfTwo audio.length) 65536
    let n := (min audio.length fftSize : ℝ)
    let fftInput := (List.range fftSize).map fun i =>
      if i < min audio.length fftSize then
        Complex.ofReal (audio.getD i 0 * (0.5 * (1 - Real.cos (2 * Real.pi * i / n))))
      else 0
    let spec := Analyzer.dft fftInput
    let bassBin := hzToBin 200 sampleRate fftSize
    let midBin := hzToBin 2000 sampleRate fftSize
    let bassEnergy := ((spec.take bassBin).map Complex.normSq).sum
    let midEnergy := (((spec.drop bassBin).take (midBin - bassBin)).map Complex.normSq).sum
    let total := bassEnergy + midEnergy
    if total < 1e-10 then 0.5
    else Analyzer.rclamp (bassEnergy / total) 0 1

/-- `compute_silence_ratio` of `fingerprint_compute.rs`: fraction of samples
below the -40 dB linear threshold. -/
noncomputable def computeSilenceRatio (audio : List ℝ) : ℝ :=
  if audio = [] then 1
  else
    let threshold := (10 : ℝ) ^ ((-40 : ℝ) / 20)
    let silentSamples := (audio.filter fun s => |s| < threshold).length
    Analyzer.rclamp ((silentSamples : ℝ) / (audio.length : ℝ)) 0 1

/-- One magnitude bin of the cheap per-frame DFT inside
`fingerprint_compute.rs::estimate_tempo`. -/
noncomputable def tempoFrameMag (frame : List ℝ) (frameSize k : ℕ) : ℝ :=
  let re := ((List.range frame.length).map fun n =>
    frame.getD n 0 * Real.cos (-(2 * Real.pi * k * n / (frameSize : ℝ)))).sum
  let im := ((List.range frame.length).map fun n =>
    frame.getD n 0 * Real.sin (-(2 * Real.pi * k * n / (frameSize : ℝ)))).sum
  Real.sqrt (re * re + im * im)

/-- The magnitude half-spectrum (513 bins) of one frame of
`fingerprint_compute.rs::estimate_tempo`. -/
noncomputable def tempoFrameMags (audio : List ℝ) (start : ℕ) : List ℝ :=
  let stop := min (start + 1024) audio.length
  let frame := (audio.drop start).take (stop - start)
  (List.range 513).map (tempoFrameMag frame 1024)

/-- `estimate_tempo` of `fingerprint_compute.rs`: onset-envelope
autocorrelation over the BPM range `[60, 200]`, clamped to `[60, 200]`
(120 on short input or degenerate lag ranges). -/
noncomputable def estimateTempo (audio : List ℝ) (sampleRate : ℕ) : ℝ :=
  if audio.length < 2048 then 120
  else
    let nFrames := (audio.length - 1024) / 512 + 1
    if nFrames < 2 then 120
    else
      let mags := (List.range nFrames).map fun i => tempoFrameMags audio (i * 512)
      let onsetEnv := (mags.zip (List.replicate 513 0 :: mags)).map fun p =>
        Analyzer.fluxOf p.1 p.2
      if onsetEnv.length < 4 then 120
      else
        let onsetSr := (sampleRate : ℝ) / 512
        let minLag := Nat.ceil (onsetSr * 60 / 200)
        let maxLag := min (Nat.floor (onsetSr * 60 / 60)) (onsetEnv.length / 2)
        if maxLag ≤ minLag then 120
        else
          let corrAt := fun (lag : ℕ) =>
            ((List.range (onsetEnv.length - lag)).map fun i =>
              onsetEnv.getD i 0 * onsetEnv.getD (i + lag) 0).sum
          let best := ((List.range' minLag (maxLag + 1 - minLag)).foldl
            (fun acc lag =>
              let corr := corrAt lag
              match acc.2 with
              | none => (lag, some corr)
              | some b => if b < corr then (lag, some corr) else acc)
            (minLag, (none : Option ℝ)))
          Analyzer.rclamp (60 * onsetSr / (best.1 : ℝ)) 60 200

/-- The onset-marking scan of `estimate_rhythm_stability`: walks the energy
envelope with an `in_onset` flag, recording each frame that first exceeds the
threshold. -/
noncomputable def onsetScan (meanEnergy threshold : ℝ) :
    List (ℕ × ℝ) → List ℕ → Bool → List ℕ
  | [], acc, _ => acc
  | (i, e) :: rest, acc, inOnset =>
    if threshold < e ∧ inOnset = false then onsetScan meanEnergy threshold rest (acc ++ [i]) true
    else if e ≤ meanEnergy then onsetScan meanEnergy threshold rest acc false
    else onsetScan meanEnergy threshold rest acc inOnset

/-- `estimate_rhythm_stability` of `fingerprint_compute.rs`: `1 - cv` of the
inter-onset intervals, clamped to `[0, 1]` (0.5 on short input or too few
onsets). -/
noncomputable def estimateRhythmStability (audio : List ℝ) (_sampleRate : ℕ) : ℝ :=
  if audio.length < 4096 then 0.5
  else
    let nFrames := (audio.length - 1024) / 512 + 1
    let energies := (List.range nFrames).map fun i =>
      let start := i * 512
      let stop := min (start + 1024) audio.length
      (((audio.drop start).take (stop - start)).map fun s => s * s).sum / ((stop - start : ℕ) : ℝ)
    let meanEnergy := energies.sum / (energies.length : ℝ)
    let threshold := meanEnergy * 1.5
    let onsetFrames := onsetScan meanEnergy threshold energies.enum [] false
    if onsetFrames.length < 3 then 0.5
    else
      let iois := (onsetFrames.zip onsetFrames.tail).map fun p => ((p.2 - p.1 : ℕ) : ℝ)
      let meanIoi := iois.sum / (iois.length : ℝ)
      if meanIoi < 1e-6 then 0.5
      else
        let variance := (iois.map fun ioi => (ioi - meanIoi) ^ 2).sum / (iois.length : ℝ)
        let cv := Real.sqrt variance / meanIoi
        Analyzer.rclamp (1 - cv) 0 1

/-- `estimate_pitch_stability` of `fingerprint_compute.rs`: `1 - cv` of the
per-frame zero-crossing rates, clamped to `[0, 1]` (0.5 on short or silent
input). -/
noncomputable def estimatePitchStability (audio : List ℝ) (_sampleRate : ℕ) : ℝ :=
  if audio.length < 6144 then 0.5
  else
    let nFrames := (audio.length - 2048) / 1024 + 1
    let zcrs := (List.range nFrames).map fun i =>
      let start := i * 1024
      let stop := min (start + 2048) audio.length
      let frame := (audio.drop start).take (stop - start)
      let crossings := ((frame.zip frame.tail).filter fun w =>
        decide (0 ≤ w.1) ≠ decide (0 ≤ w.2)).length
      (crossings : ℝ) / ((stop - start : ℕ) : ℝ)
    if zcrs.length < 2 then 0.5
    else
      let meanZcr := zcrs.sum / (zcrs.length : ℝ)
      if meanZcr < 1e-8 then 0.5
      else
        let variance := (zcrs.map fun z => (z - meanZcr) ^ 2).sum / (zcrs.length : ℝ)
        let cv := Real.sqrt variance / meanZcr
        Analyzer.rclamp (1 - cv) 0 1

/-- `estimate_transient_density` of `fingerprint_compute.rs`: rate of
significant sample-to-sample changes over the first analysis window. -/
noncomputable def estimateTransientDensity (audio : List ℝ) (sampleRate : ℕ) : ℝ :=
  if audio.length < 2 then 0
  else
    let frameSize := max sampleRate 512
    let diffCount := (((audio.zip audio.tail).take
      (min frameSize (audio.length - 1))).filter fun w => 0.01 < |w.2 - w.1|).length
    Analyzer.rclamp ((diffCount : ℝ) / (frameSize : ℝ)) 0 1

/-- `estimate_harmonic_ratio` of `fingerprint_compute.rs`: one minus the
spectral flatness, clamped to `[0, 1]`. -/
noncomputable def estimateHarmonicRatio (audio : List ℝ) (sampleRate : ℕ) : ℝ :=
  let psd := (SpectralFeatures.audioToFreqDomain audio sampleRate).2
  let flatness := SpectralFeatures.computeSpectralFlatness psd
  Analyzer.rclamp (1 - flatness) 0 1

/-- `estimate_chroma_energy` of `fingerprint_compute.rs`: RMS in dB shifted by
+20 and normalized by 40, clamped to `[0, 1]`. -/
noncomputable def estimateChromaEnergy (audio : List ℝ) (_sampleRate : ℕ) : ℝ :=
  let rms := computeRms audio
  let db := 20 * Real.logb 10 rms + 20
  Analyzer.rclamp (db / 40) 0 1

/-- `compute_complete_fingerprint` of `fingerprint_compute.rs`: the
simplified 25-dimensional path, with input validation and mono downmix. -/
noncomputable def computeCompleteFingerprint (audio : List ℝ) (sampleRate channels : ℕ) :
    Except String AudioFingerprint :=
  if audio = [] then .error "Audio is empty"
  else if sampleRate = 0 then .error "Sample rate must be > 0"
  else if sampleRate < 8000 ∨ 384000 < sampleRate then
    .error "Sample rate is out of supported range"
  else
    let monoAudio := if channels = 2 then
        (List.range (audio.length / 2)).map fun i =>
          (audio.getD (i * 2) 0 + audio.getD (i * 2 + 1) 0) * 0.5
      else audio
    let leftChannel := (List.range ((audio.length + 1) / 2)).map fun i => audio.getD (2 * i) 0
    let rightChannel := (List.range (audio.length / 2)).map fun i => audio.getD (2 * i + 1) 0
    let freqDist := FrequencyAnalysis.computeFrequencyDistribution monoAudio sampleRate
    let fd := SpectralFeatures.audioToFreqDomain monoAudio sampleRate
    let stereoPair :=
      if channels = 2 then
        (StereoAnalysis.computeStereoWidth leftChannel rightChannel,
         StereoAnalysis.computePhaseCorrelation leftChannel rightChannel)
      else ((0 : ℝ), (1 : ℝ))
    .ok {
      sub_bass := freqDist.sub_bass
      bass := freqDist.bass
      low_mid := freqDist.low_mid
      mid := freqDist.mid
      upper_mid := freqDist.upper_mid
      presence := freqDist.presence
      air := freqDist.air
      lufs := estimateLufs monoAudio
      crest_db := computeCrestFactor monoAudio
      bass_mid_ratio := computeBassMidRatio monoAudio sampleRate
      tempo_bpm := estimateTempo monoAudio sampleRate
      rhythm_stability := estimateRhythmStability monoAudio sampleRate
      transient_density := estimateTransientDensity monoAudio sampleRate
      silence_ratio := computeSilenceRatio monoAudio
      spectral_centroid := SpectralFeatures.computeSpectralCentroid fd.2 fd.1
      spectral_rolloff := SpectralFeatures.computeSpectralRolloff fd.2 fd.1 0.85
      spectral_flatness := SpectralFeatures.computeSpectralFlatness fd.2
      harmonic_ratio := estimateHarmonicRatio monoAudio sampleRate
      pitch_stability := estimatePitchStability monoAudio sampleRate
      chroma_energy := estimateChromaEnergy monoAudio sampleRate
      dynamic_range_variation := VariationAnalysis.computeDynamicRangeVariation monoAudio sampleRate
      loudness_variation := VariationAnalysis.computeLoudnessVariation monoAudio sampleRate
      peak_consistency := VariationAnalysis.computePeakConsistency monoAudio sampleRate
      stereo_width := stereoPair.1
      phase_correlation := stereoPair.2 }

end FingerprintCompute

namespace Tempo

/-- `TempoConfig` of `tempo.rs`. -/
structure TempoConfig where
  n_fft : ℕ
  hop_length : ℕ
  threshold_multiplier : ℝ
  min_bpm : ℝ
  max_bpm : ℝ

/-- `TempoConfig::default()`. -/
noncomputable def TempoConfig.default : TempoConfig :=
  { n_fft := 1024, hop_length := 512, threshold_multiplier := 0.5,
    min_bpm := 60, max_bpm := 200 }

/-- `create_hann_window` of `tempo.rs`. -/
noncomputable def createHannWindow (size : ℕ) : List ℝ :=
  (List.range size).map fun i =>
    0.5 * (1 - Real.cos (2 * Real.pi * i / ((size : ℝ) - 1)))

/-- The magnitude half-spectrum (`n_fft/2 + 1` bins) of one windowed frame of
`compute_spectral_flux`. -/
noncomputable def fluxFrameMags (audio : List ℝ) (nFft start : ℕ) : List ℝ :=
  let frame := ((audio.drop start).take nFft).zipWith
    (fun s w => Complex.ofReal (s * w)) (createHannWindow nFft)
  ((Analyzer.dft frame).take (nFft / 2 + 1)).map Complex.abs

/-- `compute_spectral_flux` of `tempo.rs`: one flux value per full frame, the
first computed against an all-zero previous spectrum. -/
noncomputable def computeSpectralFlux (audio : List ℝ) (nFft hopLength : ℕ) : List ℝ :=
  let frameCount := if nFft ≤ audio.length then (audio.length - nFft) / hopLength + 1 else 0
  let mags := (List.range frameCount).map fun i => fluxFrameMags audio nFft (i * hopLength)
  (mags.zip (List.replicate (nFft / 2 + 1) 0 :: mags)).map fun p => Analyzer.fluxOf p.1 p.2

/-- `detect_flux_peaks` of `tempo.rs`: strict local maxima above
`mean + multiplier·std` (empty for fewer than three flux values). -/
noncomputable def detectFluxPeaks (fluxValues : List ℝ) (thresholdMultiplier : ℝ) : List ℕ :=
  if fluxValues.length < 3 then []
  else
    let meanFlux := fluxValues.sum / (fluxValues.length : ℝ)
    let variance := (fluxValues.map fun x => (x - meanFlux) ^ 2).sum / (fluxValues.length : ℝ)
    let threshold := meanFlux + thresholdMultiplier * Real.sqrt variance
    (List.range (fluxValues.length - 2)).filterMap fun j =>
      let i := j + 1
      if fluxValues.getD (i - 1) 0 < fluxValues.getD i 0 ∧
          fluxValues.getD (i + 1) 0 < fluxValues.getD i 0 ∧
          threshold < fluxValues.getD i 0 then some i else none

/-- The candidate list of the octave correction in
`calculate_tempo_from_peaks`. -/
noncomputable def octaveCandidates (rawTempo : ℝ) : List ℝ :=
  [rawTempo, rawTempo / 2, rawTempo / 3, rawTempo / 4, rawTempo / 6, rawTempo / 8, rawTempo * 2]

/-- The score of one candidate: distance from the 105 BPM sweet-spot center
plus a 50-point penalty outside `[70, 140]`. -/
noncomputable def tempoScore (tempo : ℝ) : ℝ :=
  |tempo - 105| + (if 70 ≤ tempo ∧ tempo ≤ 140 then 0 else 50)

/-- One step of the best-candidate loop of `calculate_tempo_from_peaks`: an
in-range candidate replaces the current best when its score is strictly
smaller; the `Option` score models the `f64::MAX` sentinel. -/
noncomputable def selectStep (cfg : TempoConfig) (acc : ℝ × Option ℝ) (tempo : ℝ) :
    ℝ × Option ℝ :=
  if cfg.min_bpm ≤ tempo ∧ tempo ≤ cfg.max_bpm then
    match acc.2 with
    | none => (tempo, some (tempoScore tempo))
    | some b => if tempoScore tempo < b then (tempo, some (tempoScore tempo)) else acc
  else acc

/-- The best-candidate fold of `calculate_tempo_from_peaks`, starting from the
120 default. -/
noncomputable def selectTempoCandidate (cfg : TempoConfig) (candidates : List ℝ) : ℝ :=
  (candidates.foldl (selectStep cfg) ((120 : ℝ), (none : Option ℝ))).1

/-- `calculate_tempo_from_peaks` of `tempo.rs`: mean inter-peak interval to
raw BPM, then aggressive octave correction toward the 70-140 BPM range. -/
noncomputable def calculateTempoFromPeaks (peaks : List ℕ) (hopLength sr : ℕ)
    (cfg : TempoConfig) : ℝ :=
  if peaks.length < 2 then 120
  else
    let intervals := (peaks.zip peaks.tail).map fun p => ((p.2 - p.1 : ℕ) : ℝ)
    let avgInterval := intervals.sum / (intervals.length : ℝ)
    let beatInterval := avgInterval * ((hopLength : ℝ) / (sr : ℝ))
    if 0 < beatInterval then
      selectTempoCandidate cfg (octaveCandidates (60 / beatInterval))
    else 120

/-- `detect_tempo` of `tempo.rs`: flux, peak picking, interval-based BPM with
octave correction, final clamp to `[min_bpm, max_bpm]` (120 on short input,
short flux, or too few peaks). -/
noncomputable def detectTempo (audio : List ℝ) (sr : ℕ) (cfg : TempoConfig) : ℝ :=
  if audio = [] ∨ audio.length < cfg.n_fft then 120
  else
    let fluxValues := computeSpectralFlux audio cfg.n_fft cfg.hop_length
    if fluxValues.length < 2 then 120
    else
      let peaks := detectFluxPeaks fluxValues cfg.threshold_multiplier
      if peaks.length < 2 then 120
      else
        let tempo := calculateTempoFromPeaks peaks cfg.hop_length sr cfg
        min (max tempo cfg.min_bpm) cfg.max_bpm

end Tempo

namespace Yin

/-- `compute_difference_function` of `yin.rs`:
`DF[τ] = Σ_{i<n-τ} (y[i] - y[i+τ])²`. -/
noncomputable def computeDifferenceFunction (frame : List ℝ) : List ℝ :=
  (List.range frame.length).map fun tau =>
    ((List.range (frame.length - tau)).map fun i =>
      (frame.getD i 0 - frame.getD (i + tau) 0) ^ 2).sum

/-- `cumulative_mean_normalization` of `yin.rs`: `AACF[0] = 1`,
`AACF[τ] = 2·DF[τ] / Σ_{i≤τ} DF[i]` (2 when the running sum is tiny),
clipped into `[0, 2]`. -/
noncomputable def cumulativeMeanNormalization (df : List ℝ) : List ℝ :=
  (List.range df.length).map fun (tau : ℕ) =>
    if tau = 0 then 1
    else
      let runningSum := (df.take (tau + 1)).sum
      let v := if 1e-10 < runningSum then 2 * df.getD tau 0 / runningSum else 2
      max (min v 2) 0

/-- `find_trough` of `yin.rs`: the first lag in `[min_lag, search_end)` whose
AACF value is below the threshold. -/
noncomputable def findTrough (aacf : List ℝ) (minLag maxLag : ℕ) (threshold : ℝ) :
    Option ℕ :=
  if aacf.length ≤ minLag ∨ maxLag ≤ minLag then none
  else
    let searchEnd := min maxLag aacf.length
    (List.range' minLag (searchEnd - minLag)).find? fun tau =>
      decide (aacf.getD tau 0 < threshold)

/-- `parabolic_interpolate` of `yin.rs`: sub-sample trough refinement with
the offset clamped to `[-0.5, 0.5]`. -/
noncomputable def parabolicInterpolate (aacf : List ℝ) (tau : ℕ) : ℝ :=
  if tau = 0 ∨ aacf.length - 1 ≤ tau then (tau : ℝ)
  else
    let y1 := aacf.getD (tau - 1) 0
    let y2 := aacf.getD tau 0
    let y3 := aacf.getD (tau + 1) 0
    let denom := 2 * (y1 - 2 * y2 + y3)
    if |denom| < 1e-10 then (tau : ℝ)
    else (tau : ℝ) + Analyzer.rclamp ((y1 - y3) / denom) (-0.5) 0.5

/-- The AACF of one frame: cumulative mean normalization of the difference
function (steps 1 and 2 of `process_frame`). -/
noncomputable def aacfOf (frame : List ℝ) : List ℝ :=
  cumulativeMeanNormalization (computeDifferenceFunction frame)

/-- `process_frame` of `yin.rs`: difference function, cumulative mean
normalization, trough search, parabolic refinement,
`f0 = sr / refined_lag` (0 for unvoiced frames). -/
noncomputable def processFrame (frame : List ℝ) (sr : ℝ) (minLag maxLag : ℕ)
    (threshold : ℝ) : ℝ :=
  match findTrough (aacfOf frame) minLag maxLag threshold with
  | some tau =>
    let refinedLag := parabolicInterpolate (aacfOf frame) tau
    let frequency := sr / refinedLag
    if 0 < frequency then frequency else 0
  | none => 0

/-- The zero-padded frame at `start` used by the `yin` frame loop. -/
def frameAt (y : List ℝ) (start : ℕ) : List ℝ :=
  let stop := min (start + 2048) y.length
  let s := (y.drop start).take (stop - start)
  s ++ List.replicate (2048 - s.length) 0

/-- The lag bounds of `yin`: `min_lag = max(⌊sr/fmax⌋, 2)`,
`max_lag = min(⌊sr/fmin⌋, FRAME_LENGTH - 1)`. -/
noncomputable def lagBounds (sr : ℕ) (fmin fmax : ℝ) : ℕ × ℕ :=
  (max (Nat.floor ((sr : ℝ) / fmax)) 2, min (Nat.floor ((sr : ℝ) / fmin)) 2047)

/-- `yin` of `yin.rs` with the parallel frame loop read sequentially in frame
order: per-frame fundamental frequencies, 0 for unvoiced frames. -/
noncomputable def yin (y : List ℝ) (sr : ℕ) (fmin fmax : ℝ) : List ℝ :=
  if y.length < 2048 then [0]
  else
    let nFrames := (y.length - 2048) / 512 + 1
    let (minLag, maxLag) := lagBounds sr fmin fmax
    if maxLag ≤ minLag then List.replicate nFrames 0
    else (List.range nFrames).map fun frameIdx =>
      processFrame (frameAt y (frameIdx * 512)) (sr : ℝ) minLag maxLag 0.15

/-- Task-completion model of a work-stealing `par_iter().map().collect()`:
the tasks finish in the order given by `order`, each writing its result at
its own index of a pre-sized buffer. -/
def runSchedule {α : Type} (f : ℕ → α) (d : α) (n : ℕ) (order : List ℕ) : List α :=
  order.foldl (fun acc i => acc.set i (f i)) (List.replicate n d)

/-- `yin` with the rayon frame loop executed under an explicit completion
schedule. -/
noncomputable def yinScheduled (y : List ℝ) (sr : ℕ) (fmin fmax : ℝ)
    (order : List ℕ) : List ℝ :=
  if y.length < 2048 then [0]
  else
    let nFrames := (y.length - 2048) / 512 + 1
    let (minLag, maxLag) := lagBounds sr fmin fmax
    if maxLag ≤ minLag then List.replicate nFrames 0
    else runSchedule
      (fun frameIdx => processFrame (frameAt y (frameIdx * 512)) (sr : ℝ) minLag maxLag 0.15)
      0 nFrames order

end Yin

namespace Chroma

/-- `convolve_single_bin` of `chroma.rs`: per-frame complex inner product of
the audio with one CQT kernel (0 when the kernel overruns the buffer). -/
noncomputable def convolveSingleBin (audio : List ℝ) (kernel : List ℂ)
    (hopLength : ℕ) : List ℝ :=
  let nFrames := if hopLength ≤ audio.length then (audio.length - hopLength) / hopLength + 1 else 1
  (List.range nFrames).map fun frameIdx =>
    let startIdx := frameIdx * hopLength
    if audio.length < startIdx + kernel.length then 0
    else Complex.abs (((List.range kernel.length).map fun k =>
      if startIdx + k < audio.length then
        (audio.getD (startIdx + k) 0 : ℂ) * kernel.getD k 0
      else 0).sum)

/-- `convolve_cqt` of `chroma.rs` with the parallel bin loop read
sequentially in bin order: one magnitude row per kernel. -/
noncomputable def convolveCqt (y : List ℝ) (kernels : List (List ℂ)) : List (List ℝ) :=
  let nFrames := if 512 ≤ y.length then (y.length - 512) / 512 + 1 else 1
  kernels.map fun kernel =>
    if kernel = [] then List.replicate nFrames 0
    else convolveSingleBin y kernel 512

/-- `convolve_cqt` with the rayon bin loop executed under an explicit
completion schedule. -/
noncomputable def convolveCqtScheduled (y : List ℝ) (kernels : List (List ℂ))
    (order : List ℕ) : List (List ℝ) :=
  let nFrames := if 512 ≤ y.length then (y.length - 512) / 512 + 1 else 1
  Yin.runSchedule
    (fun binIdx =>
      if kernels.getD binIdx [] = [] then List.replicate nFrames 0
      else convolveSingleBin y (kernels.getD binIdx []) 512)
    [] kernels.length order

end Chroma

/-- The declared per-field ranges of the fingerprint data model (spec §3),
stated over the engine record: band percentages in `[0, 100]`, `lufs` in
`[-120, 0]`, `crest_db` in `[0, 50]`, `bass_mid_ratio` in `[-40, 40]`,
`tempo_bpm` in `[40, 200]`, the spectral, harmonic, stability and
consistency fields in `[0, 1]`, `loudness_variation_std` in `[0, 10]`,
`stereo_width` in `[0, 1]` and `phase_correlation` in `[-1, 1]`. -/
def declaredRanges (fp : Fingerprint) : Prop :=
  (0 ≤ fp.sub_bass_pct ∧ fp.sub_bass_pct ≤ 100) ∧
  (0 ≤ fp.bass_pct ∧ fp.bass_pct ≤ 100) ∧
  (0 ≤ fp.low_mid_pct ∧ fp.low_mid_pct ≤ 100) ∧
  (0 ≤ fp.mid_pct ∧ fp.mid_pct ≤ 100) ∧
  (0 ≤ fp.upper_mid_pct ∧ fp.upper_mid_pct ≤ 100) ∧
  (0 ≤ fp.presence_pct ∧ fp.presence_pct ≤ 100) ∧
  (0 ≤ fp.air_pct ∧ fp.air_pct ≤ 100) ∧
  (-120 ≤ fp.lufs ∧ fp.lufs ≤ 0) ∧
  (0 ≤ fp.crest_db ∧ fp.crest_db ≤ 50) ∧
  (-40 ≤ fp.bass_mid_ratio ∧ fp.bass_mid_ratio ≤ 40) ∧
  (40 ≤ fp.tempo_bpm ∧ fp.tempo_bpm ≤ 200) ∧
  (0 ≤ fp.rhythm_stability ∧ fp.rhythm_stability ≤ 1) ∧
  (0 ≤ fp.transient_density ∧ fp.transient_density ≤ 1) ∧
  (0 ≤ fp.silence_ratio ∧ fp.silence_ratio ≤ 1) ∧
  (0 ≤ fp.spectral_centroid ∧ fp.spectral_centroid ≤ 1) ∧
  (0 ≤ fp.spectral_rolloff ∧ fp.spectral_rolloff ≤ 1) ∧
  (0 ≤ fp.spectral_flatness ∧ fp.spectral_flatness ≤ 1) ∧
  (0 ≤ fp.harmonic_ratio ∧ fp.harmonic_ratio ≤ 1) ∧
  (0 ≤ fp.pitch_stability ∧ fp.pitch_stability ≤ 1) ∧
  (0 ≤ fp.chroma_energy ∧ fp.chroma_energy ≤ 1) ∧
  (0 ≤ fp.dynamic_range_variation ∧ fp.dynamic_range_variation ≤ 1) ∧
  (0 ≤ fp.loudness_variation_std ∧ fp.loudness_variation_std ≤ 10) ∧
  (0 ≤ fp.peak_consistency ∧ fp.peak_consistency ≤ 1) ∧
  (0 ≤ fp.stereo_width ∧ fp.stereo_width ≤ 1) ∧
  (-1 ≤ fp.phase_correlation ∧ fp.phase_correlation ≤ 1)

/-! ### Shared lemmas -/

lemma minmax_low (x lo hi : ℝ) (h : lo ≤ hi) : lo ≤ min (max x lo) hi :=
  le_min (le_max_right x lo) h

lemma minmax_high (x lo hi : ℝ) : min (max x lo) hi ≤ hi := min_le_right _ _

lemma maxmin_low (x lo hi : ℝ) : lo ≤ max (min x hi) lo := le_max_right _ _

lemma maxmin_high (x lo hi : ℝ) (h : lo ≤ hi) : max (min x hi) lo ≤ hi :=
  max_le (min_le_right x hi) h

lemma rclamp_low (x lo hi : ℝ) (h : lo ≤ hi) : lo ≤ Analyzer.rclamp x lo hi :=
  minmax_low x lo hi h

lemma rclamp_high (x lo hi : ℝ) : Analyzer.rclamp x lo hi ≤ hi := minmax_high x lo hi

lemma replicate_nonempty {α : Type} (n : ℕ) (h : 0 < n) (a : α) :
    List.replicate n a ≠ [] := by
  intro hcontra
  have := congrArg List.length hcontra
  rw [List.length_replicate] at this
  simp at this
  omega

namespace Analyzer

lemma dft_length (x : List ℂ) : (dft x).length = x.length := by
  rw [dft, List.length_map, List.length_range]

lemma windowedInput_length (s : List ℝ) :
    (windowedInput s).length = min s.length FFT_SIZE := by
  simp only [windowedInput, List.length_zipWith, List.length_take, List.length_map,
    List.length_range]
  rw [min_comm FFT_SIZE s.length, min_assoc, min_self]

lemma fftMagnitudes_length (s : List ℝ) :
    (fftMagnitudes s).length = min s.length FFT_SIZE := by
  simp only [fftMagnitudes, List.length_map, dft_length, windowedInput_length]

lemma fftMagnitudes_mem_le (s : List ℝ) {x : ℝ} (hx : x ∈ fftMagnitudes s) :
    1e-10 ≤ x := by
  simp only [fftMagnitudes, List.mem_map] at hx
  obtain ⟨c, -, rfl⟩ := hx
  exact le_max_right _ _

lemma fluxOf_nonneg (spectrum prev : List ℝ) : 0 ≤ fluxOf spectrum prev := by
  refine List.sum_nonneg ?_
  intro x hx
  simp only [List.mem_map] at hx
  obtain ⟨p, -, rfl⟩ := hx
  exact le_max_right _ _

lemma fluxOf_zero_pos (spectrum : List ℝ) (hlen : (FFT_SIZE / 2 : ℕ) ≤ spectrum.length)
    (hmem : ∀ x ∈ spectrum, (1e-10 : ℝ) ≤ x) :
    0 < fluxOf spectrum (List.replicate (FFT_SIZE / 2) 0) := by
  have hzip : (spectrum.zip (List.replicate (FFT_SIZE / 2) (0 : ℝ))).length = FFT_SIZE / 2 := by
    simp [List.length_zip, Nat.min_eq_right hlen]
  have hne : spectrum.zip (List.replicate (FFT_SIZE / 2) (0 : ℝ)) ≠ [] := by
    intro h
    rw [h] at hzip
    simp [FFT_SIZE] at hzip
  obtain ⟨p, ps, hp⟩ := List.exists_cons_of_ne_nil hne
  have hp1 : (1e-10 : ℝ) ≤ p.1 := by
    have hmem1 : p.1 ∈ spectrum := by
      have : p ∈ spectrum.zip (List.replicate (FFT_SIZE / 2) (0 : ℝ)) := by
        rw [hp]; exact List.mem_cons_self _ _
      exact (List.mem_zip this).1
    exact hmem _ hmem1
  have hp2 : p.2 = 0 := by
    have : p ∈ spectrum.zip (List.replicate (FFT_SIZE / 2) (0 : ℝ)) := by
      rw [hp]; exact List.mem_cons_self _ _
    have := (List.mem_zip this).2
    exact List.eq_of_mem_replicate this
  have hterm : (1e-10 : ℝ) ≤ max (p.1 - p.2) 0 := by
    rw [hp2]
    have : (1e-10 : ℝ) ≤ p.1 - 0 := by linarith
    exact le_trans this (le_max_left _ _)
  unfold fluxOf
  rw [hp]
  simp only [List.map_cons, List.sum_cons]
  have hrest : 0 ≤ (ps.map fun p => max (p.1 - p.2) 0).sum := by
    refine List.sum_nonneg ?_
    intro x hx
    simp only [List.mem_map] at hx
    obtain ⟨q, -, rfl⟩ := hx
    exact le_max_right _ _
  have : (0 : ℝ) < 1e-10 := by norm_num
  linarith

lemma frame_valid_of_not_short (samples : List ℝ) (idx : ℕ)
    (h : ¬ (min (idx * HOP_LENGTH + FFT_SIZE) samples.length - idx * HOP_LENGTH < FFT_SIZE)) :
    idx * HOP_LENGTH + FFT_SIZE ≤ samples.length := by
  by_contra hlt
  push_neg at hlt h
  rw [min_eq_right hlt.le] at h
  simp only [FFT_SIZE, HOP_LENGTH] at h hlt
  omega

lemma frame_slice_length (samples : List ℝ) (idx : ℕ)
    (h : ¬ (min (idx * HOP_LENGTH + FFT_SIZE) samples.length - idx * HOP_LENGTH < FFT_SIZE)) :
    ((samples.drop (idx * HOP_LENGTH)).take
      (min (idx * HOP_LENGTH + FFT_SIZE) samples.length - idx * HOP_LENGTH)).length = FFT_SIZE := by
  have hlen := frame_valid_of_not_short samples idx h
  rw [min_eq_left hlen]
  have h1 : idx * HOP_LENGTH + FFT_SIZE - idx * HOP_LENGTH = FFT_SIZE := by omega
  rw [h1, List.length_take, List.length_drop]
  rw [min_eq_left (by omega)]

lemma fluxLoop_eq (samples : List ℝ) (sr : ℕ) :
    ∀ (n idx : ℕ) (prev acc : List ℝ),
      fluxLoop samples sr n idx prev acc = .ok (acc ++ fluxPure samples n idx prev) := by
  intro n
  induction n with
  | zero => intro idx prev acc; simp [fluxLoop, fluxPure]
  | succ m ih =>
    intro idx prev acc
    rw [fluxLoop, fluxPure]
    by_cases hc : min (idx * HOP_LENGTH + FFT_SIZE) samples.length - idx * HOP_LENGTH < FFT_SIZE
    · simp [hc]
    · have hslice := frame_slice_length samples idx hc
      have hfft : computeFFTSpectrum
          ((samples.drop (idx * HOP_LENGTH)).take
            (min (idx * HOP_LENGTH + FFT_SIZE) samples.length - idx * HOP_LENGTH)) sr =
          .ok (fftMagnitudes ((samples.drop (idx * HOP_LENGTH)).take
            (min (idx * HOP_LENGTH + FFT_SIZE) samples.length - idx * HOP_LENGTH)),
            fftFreqs sr) := by
        rw [computeFFTSpectrum, if_neg]
        rw [hslice]
        simp [FFT_SIZE]
      simp only [hc, if_false, hfft]
      rw [ih]
      simp

lemma frame_valid_iff (len idx : ℕ) :
    idx * HOP_LENGTH + FFT_SIZE ≤ len ↔ idx < fluxFrameBound len := by
  unfold fluxFrameBound HOP_LENGTH FFT_SIZE
  constructor
  · intro h
    rw [if_pos (by omega)]
    have : idx ≤ (len - 2048) / 512 := by
      rw [Nat.le_div_iff_mul_le (by norm_num)]
      omega
    omega
  · intro h
    by_cases hl : 2048 ≤ len
    · rw [if_pos hl] at h
      have : idx ≤ (len - 2048) / 512 := by omega
      have := (Nat.le_div_iff_mul_le (k := 512) (by norm_num)).1 this
      omega
    · rw [if_neg hl] at h
      omega

lemma fluxPure_length (samples : List ℝ) :
    ∀ (n idx : ℕ) (prev : List ℝ),
      (fluxPure samples n idx prev).length = min n (fluxFrameBound samples.length - idx) := by
  intro n
  induction n with
  | zero => intro idx prev; simp [fluxPure]
  | succ m ih =>
    intro idx prev
    rw [fluxPure]
    by_cases hc : min (idx * HOP_LENGTH + FFT_SIZE) samples.length - idx * HOP_LENGTH < FFT_SIZE
    · have hnv : ¬ idx * HOP_LENGTH + FFT_SIZE ≤ samples.length := by
        intro hv
        rw [min_eq_left hv] at hc
        simp only [FFT_SIZE, HOP_LENGTH] at hc
        omega
      simp only [hc, if_true, List.length_nil]
      have hz : fluxFrameBound samples.length - idx = 0 := by
        rcases Nat.lt_or_ge idx (fluxFrameBound samples.length) with h' | h'
        · exact absurd ((frame_valid_iff samples.length idx).2 h') hnv
        · omega
      rw [hz]
      simp
    · have hv := frame_valid_of_not_short samples idx hc
      rw [frame_valid_iff] at hv
      simp only [hc, if_false, List.length_cons, ih]
      have h1 : fluxFrameBound samples.length - (idx + 1) + 1 = fluxFrameBound samples.length - idx := by
        omega
      rcases Nat.le_total m (fluxFrameBound samples.length - (idx + 1)) with h' | h'
      · rw [min_eq_left h', min_eq_left (by omega)]
      · rw [min_eq_right h', min_eq_right (by omega)]
        omega

lemma fluxPure_nonneg (samples : List ℝ) :
    ∀ (n idx : ℕ) (prev : List ℝ) (x : ℝ), x ∈ fluxPure samples n idx prev → 0 ≤ x := by
  intro n
  induction n with
  | zero => intro idx prev x hx; simp [fluxPure] at hx
  | succ m ih =>
    intro idx prev x hx
    rw [fluxPure] at hx
    by_cases hc : min (idx * HOP_LENGTH + FFT_SIZE) samples.length - idx * HOP_LENGTH < FFT_SIZE
    · simp [hc] at hx
    · simp only [hc, if_false, List.mem_cons] at hx
      rcases hx with rfl | hx
      · exact fluxOf_nonneg _ _
      · exact ih _ _ _ hx

lemma fluxPure_sum_pos (samples : List ℝ) (n : ℕ)
    (hne : fluxPure samples n 0 (List.replicate (FFT_SIZE / 2) 0) ≠ []) :
    0 < (fluxPure samples n 0 (List.replicate (FFT_SIZE / 2) 0)).sum := by
  cases n with
  | zero => simp [fluxPure] at hne
  | succ m =>
    rw [fluxPure] at hne ⊢
    by_cases hc : min (0 * HOP_LENGTH + FFT_SIZE) samples.length - 0 * HOP_LENGTH < FFT_SIZE
    · rw [if_pos hc] at hne
      exact absurd rfl hne
    · simp only [hc, if_false, List.sum_cons]
      have hslice := frame_slice_length samples 0 hc
      have hmlen : (FFT_SIZE / 2 : ℕ) ≤
          (fftMagnitudes ((samples.drop (0 * HOP_LENGTH)).take
            (min (0 * HOP_LENGTH + FFT_SIZE) samples.length - 0 * HOP_LENGTH))).length := by
        rw [fftMagnitudes_length, hslice]
        simp [FFT_SIZE]
      have hpos := fluxOf_zero_pos _ hmlen (fun x hx => fftMagnitudes_mem_le _ hx)
      have hrest : 0 ≤ (fluxPure samples m (0 + 1)
          (fftMagnitudes ((samples.drop (0 * HOP_LENGTH)).take
            (min (0 * HOP_LENGTH + FFT_SIZE) samples.length - 0 * HOP_LENGTH)))).sum :=
        List.sum_nonneg (fun x hx => fluxPure_nonneg samples m (0 + 1) _ x hx)
      linarith

lemma estimateTempo_eq (samples : List ℝ) (sr : ℕ) :
    estimateTempo samples sr = .ok (tempoValue samples.length sr) := by
  unfold estimateTempo tempoValue
  by_cases h2 : samples.length / HOP_LENGTH < 2
  · simp [h2]
  · simp only [h2, if_false]
    rw [fluxLoop_eq]
    simp only [List.nil_append]
    have hlen := fluxPure_length samples (samples.length / HOP_LENGTH) 0
      (List.replicate (FFT_SIZE / 2) 0)
    rw [Nat.sub_zero] at hlen
    by_cases hfl : min (samples.length / HOP_LENGTH) (fluxFrameBound samples.length) < 2
    · rw [if_pos (by rw [hlen]; exact hfl)]
      simp [hfl]
    · rw [if_neg (by rw [hlen]; exact hfl)]
      have hne : fluxPure samples (samples.length / HOP_LENGTH) 0
          (List.replicate (FFT_SIZE / 2) 0) ≠ [] := by
        intro h
        rw [h] at hlen
        simp only [List.length_nil] at hlen
        rw [← hlen] at hfl
        exact hfl (by norm_num)
      have hpos := fluxPure_sum_pos samples (samples.length / HOP_LENGTH) hne
      have hlpos : (0 : ℝ) < ((fluxPure samples (samples.length / HOP_LENGTH) 0
          (List.replicate (FFT_SIZE / 2) 0)).length : ℝ) := by
        have h0 : 0 < (fluxPure samples (samples.length / HOP_LENGTH) 0
            (List.replicate (FFT_SIZE / 2) 0)).length := by
          rw [hlen]; omega
        exact_mod_cast h0
      rw [if_pos (div_pos hpos hlpos)]
      simp only [hfl, if_false, hlen]

end Analyzer

/-- C6: the claim asserts the error taxonomy contains a `ResourceExhausted`
kind mapped to HTTP 503 and a `Cancelled` kind mapped to HTTP 499; no
constructor of `FingerprintError` maps to either status. -/
theorem C6_no_resource_exhausted_or_cancelled :
    ¬ ∃ e : FingerprintError, e.status = 503 ∨ e.status = 499 := by
  rintro ⟨e, h | h⟩ <;> cases e <;> simp [FingerprintError.status] at h

/-- C6 (amended): the error taxonomy of `error.rs` consists exactly of
`FileNotFound` (404), `UnsupportedFormat` (415), `DecodingError` (400),
`InvalidAudio` (400), `AnalysisError` (500), `IoError` (500) and
`InternalError` (500); it has no kind mapped to 503 or 499. -/
theorem C6_error_taxonomy :
    (∀ m, (FingerprintError.FileNotFound m).status = 404) ∧
    (∀ m, (FingerprintError.UnsupportedFormat m).status = 415) ∧
    (∀ m, (FingerprintError.DecodingError m).status = 400) ∧
    (∀ m, (FingerprintError.InvalidAudio m).status = 400) ∧
    (∀ m, (FingerprintError.AnalysisError m).status = 500) ∧
    (∀ m, (FingerprintError.IoError m).status = 500) ∧
    (∀ m, (FingerprintError.InternalError m).status = 500) ∧
    (∀ e : FingerprintError, e.status ≠ 503 ∧ e.status ≠ 499) := by
  refine ⟨fun m => rfl, fun m => rfl, fun m => rfl, fun m => rfl, fun m => rfl,
    fun m => rfl, fun m => rfl, fun e => ?_⟩
  cases e <;> simp [FingerprintError.status]

namespace Tempo

lemma select_fold_none (cfg : TempoConfig) (l : List ℝ) (b0 : ℝ) :
    (∀ c ∈ l, ¬ (cfg.min_bpm ≤ c ∧ c ≤ cfg.max_bpm)) →
      l.foldl (selectStep cfg) (b0, (none : Option ℝ)) = (b0, none) := by
  induction l with
  | nil => intro _; rfl
  | cons c cs ih =>
    intro h
    simp only [List.foldl_cons]
    rw [selectStep, if_neg (h c (List.mem_cons_self c cs))]
    exact ih (fun c' hc' => h c' (List.mem_cons_of_mem _ hc'))

lemma select_fold_some (cfg : TempoConfig) :
    ∀ (l : List ℝ) (b : ℝ), (cfg.min_bpm ≤ b ∧ b ≤ cfg.max_bpm) →
      ∃ b', l.foldl (selectStep cfg) (b, some (tempoScore b)) = (b', some (tempoScore b')) ∧
        (b' = b ∨ b' ∈ l) ∧ (cfg.min_bpm ≤ b' ∧ b' ≤ cfg.max_bpm) ∧ tempoScore b' ≤ tempoScore b ∧
        ∀ c ∈ l, (cfg.min_bpm ≤ c ∧ c ≤ cfg.max_bpm) → tempoScore b' ≤ tempoScore c := by
  intro l
  induction l with
  | nil =>
    intro b hb
    exact ⟨b, rfl, Or.inl rfl, hb, le_refl _, by simp⟩
  | cons c cs ih =>
    intro b hb
    simp only [List.foldl_cons]
    by_cases hc : (cfg.min_bpm ≤ c ∧ c ≤ cfg.max_bpm)
    · by_cases hlt : tempoScore c < tempoScore b
      · have hstep : selectStep cfg (b, some (tempoScore b)) c = (c, some (tempoScore c)) := by
          rw [selectStep, if_pos hc]
          simp [hlt]
        rw [hstep]
        obtain ⟨b', heq, hmem, hrange, hle, hmin⟩ := ih c hc
        refine ⟨b', heq, ?_, hrange, le_trans hle hlt.le, ?_⟩
        · rcases hmem with rfl | hmem
          · exact Or.inr (List.mem_cons_self _ _)
          · exact Or.inr (List.mem_cons_of_mem _ hmem)
        · intro c' hc' hrange'
          rcases List.mem_cons.1 hc' with rfl | hc'
          · exact hle
          · exact hmin c' hc' hrange'
      · have hstep : selectStep cfg (b, some (tempoScore b)) c = (b, some (tempoScore b)) := by
          rw [selectStep, if_pos hc]
          simp [hlt]
        rw [hstep]
        obtain ⟨b', heq, hmem, hrange, hle, hmin⟩ := ih b hb
        refine ⟨b', heq, ?_, hrange, hle, ?_⟩
        · rcases hmem with rfl | hmem
          · exact Or.inl rfl
          · exact Or.inr (List.mem_cons_of_mem _ hmem)
        · intro c' hc' hrange'
          rcases List.mem_cons.1 hc' with rfl | hc'
          · push_neg at hlt
            exact le_trans hle hlt
          · exact hmin c' hc' hrange'
    · have hstep : selectStep cfg (b, some (tempoScore b)) c = (b, some (tempoScore b)) := by
        rw [selectStep, if_neg hc]
      rw [hstep]
      obtain ⟨b', heq, hmem, hrange, hle, hmin⟩ := ih b hb
      refine ⟨b', heq, ?_, hrange, hle, ?_⟩
      · rcases hmem with rfl | hmem
        · exact Or.inl rfl
        · exact Or.inr (List.mem_cons_of_mem _ hmem)
      · intro c' hc' hrange'
        rcases List.mem_cons.1 hc' with rfl | hc'
        · exact absurd hrange' hc
        · exact hmin c' hc' hrange'

lemma selectTempoCandidate_spec (cfg : TempoConfig) (l : List ℝ) :
    ((∀ c ∈ l, ¬ (cfg.min_bpm ≤ c ∧ c ≤ cfg.max_bpm)) ∧ selectTempoCandidate cfg l = 120) ∨
    (selectTempoCandidate cfg l ∈ l ∧ (cfg.min_bpm ≤ selectTempoCandidate cfg l ∧ selectTempoCandidate cfg l ≤ cfg.max_bpm) ∧
      ∀ c ∈ l, (cfg.min_bpm ≤ c ∧ c ≤ cfg.max_bpm) →
        tempoScore (selectTempoCandidate cfg l) ≤ tempoScore c) := by
  induction l with
  | nil => exact Or.inl ⟨by simp, rfl⟩
  | cons c cs ih =>
    by_cases hc : (cfg.min_bpm ≤ c ∧ c ≤ cfg.max_bpm)
    · right
      have hstep : selectStep cfg ((120 : ℝ), (none : Option ℝ)) c =
          (c, some (tempoScore c)) := by
        rw [selectStep, if_pos hc]
      obtain ⟨b', heq, hmem, hrange, hle, hmin⟩ := select_fold_some cfg cs c hc
      have hval : selectTempoCandidate cfg (c :: cs) = b' := by
        rw [selectTempoCandidate, List.foldl_cons, hstep, heq]
      refine ⟨?_, ?_, ?_⟩
      · rw [hval]
        rcases hmem with rfl | hmem
        · exact List.mem_cons_self _ _
        · exact List.mem_cons_of_mem _ hmem
      · rw [hval]; exact hrange
      · rw [hval]
        intro c' hc' hrange'
        rcases List.mem_cons.1 hc' with rfl | hc'
        · exact hle
        · exact hmin c' hc' hrange'
    · have hstep : selectStep cfg ((120 : ℝ), (none : Option ℝ)) c = (120, none) := by
        rw [selectStep, if_neg hc]
      have hval : selectTempoCandidate cfg (c :: cs) = selectTempoCandidate cfg cs := by
        rw [selectTempoCandidate, List.foldl_cons, hstep, selectTempoCandidate]
      rcases ih with ⟨hall, h120⟩ | ⟨hmem, hrange, hmin⟩
      · left
        refine ⟨?_, by rw [hval]; exact h120⟩
        intro c' hc'
        rcases List.mem_cons.1 hc' with rfl | hc'
        · exact hc
        · exact hall c' hc'
      · right
        rw [hval]
        refine ⟨List.mem_cons_of_mem _ hmem, hrange, ?_⟩
        intro c' hc' hrange'
        rcases List.mem_cons.1 hc' with rfl | hc'
        · exact absurd hrange' hc
        · exact hmin c' hc' hrange'

lemma getD_replicate {α : Type} (n : ℕ) (a d : α) (i : ℕ) (h : i < n) :
    (List.replicate n a).getD i d = a := by
  rw [List.getD_eq_getElem _ _ (by simpa using h)]
  exact List.getElem_replicate a (h := by simpa using h)

lemma detectFluxPeaks_replicate (m : ℕ) (v tm : ℝ) :
    detectFluxPeaks (List.replicate m v) tm = [] := by
  rw [detectFluxPeaks]
  by_cases hm : (List.replicate m v).length < 3
  · rw [if_pos hm]
  · rw [if_neg hm]
    rw [List.length_replicate] at hm
    refine List.filterMap_eq_nil.mpr ?_
    intro j hj
    rw [List.length_replicate, List.mem_range] at hj
    have h1 : (List.replicate m v).getD (j + 1 - 1) 0 = v := getD_replicate m v 0 _ (by omega)
    have h2 : (List.replicate m v).getD (j + 1) 0 = v := getD_replicate m v 0 _ (by omega)
    simp only [h1, h2]
    rw [if_neg]
    rintro ⟨hlt, -⟩
    exact lt_irrefl v hlt

lemma chain'_zip_tail {α : Type} (R : α → α → Prop) :
    ∀ (l : List α), l.Chain' R → ∀ p ∈ l.zip l.tail, R p.1 p.2 := by
  intro l
  induction l with
  | nil => intro _ p hp; simp at hp
  | cons a t ih =>
    intro hchain p hp
    cases t with
    | nil => simp at hp
    | cons b t' =>
      rw [List.chain'_cons] at hchain
      simp only [List.tail_cons, List.zip_cons_cons, List.mem_cons] at hp
      rcases hp with rfl | hp
      · exact hchain.1
      · exact ih hchain.2 p hp

lemma beat_interval_pos (peaks : List ℕ) (hopLength sr : ℕ)
    (h2 : 2 ≤ peaks.length) (hchain : peaks.Chain' (· < ·))
    (hhop : 0 < hopLength) (hsr : 0 < sr) :
    0 < (((peaks.zip peaks.tail).map fun p => ((p.2 - p.1 : ℕ) : ℝ)).sum /
        ((((peaks.zip peaks.tail).map fun p => ((p.2 - p.1 : ℕ) : ℝ)).length : ℝ))) *
        ((hopLength : ℝ) / (sr : ℝ)) := by
  have hlen : (peaks.zip peaks.tail).length = peaks.length - 1 := by
    rw [List.length_zip, List.length_tail]
    rw [min_eq_right (by omega)]
  have hne : peaks.zip peaks.tail ≠ [] := by
    intro h
    rw [h] at hlen
    simp at hlen
    omega
  have hpos : ∀ x ∈ (peaks.zip peaks.tail).map fun p => ((p.2 - p.1 : ℕ) : ℝ), 0 < x := by
    intro x hx
    simp only [List.mem_map] at hx
    obtain ⟨p, hp, rfl⟩ := hx
    have hlt := chain'_zip_tail (· < ·) peaks hchain p hp
    have : 1 ≤ p.2 - p.1 := by omega
    exact_mod_cast Nat.lt_of_lt_of_le Nat.zero_lt_one this
  have hsum : 0 < ((peaks.zip peaks.tail).map fun p => ((p.2 - p.1 : ℕ) : ℝ)).sum := by
    apply List.sum_pos _ hpos
    intro h
    exact hne (List.map_eq_nil.1 h)
  have hlpos : (0 : ℝ) <
      (((peaks.zip peaks.tail).map fun p => ((p.2 - p.1 : ℕ) : ℝ)).length : ℝ) := by
    rw [List.length_map]
    have : 0 < (peaks.zip peaks.tail).length := by
      rw [hlen]; omega
    exact_mod_cast this
  have hh : (0 : ℝ) < (hopLength : ℝ) := by exact_mod_cast hhop
  have hs : (0 : ℝ) < (sr : ℝ) := by exact_mod_cast hsr
  exact mul_pos (div_pos hsum hlpos) (div_pos hh hs)

end Tempo

/-- C3: `calculate_tempo_from_peaks` applies octave correction: among the
candidates `raw·{1, 1/2, 1/3, 1/4, 1/6, 1/8, 2}` it chooses one inside
`[min_bpm, max_bpm]` minimizing `|bpm - 105|` plus a 50 penalty outside
`[70, 140]` (falling back to 120 when no candidate is in range);
`detect_tempo` falls back to 120 on fewer than two flux values, fewer than
two detected onset peaks, and in particular on perfectly flat flux; and the
engine's `analyze_temporal` clamps its tempo output to `[40, 200]`. -/
theorem C3_octave_correction_and_fallbacks
    (peaks : List ℕ) (hopLength sr : ℕ) (cfg : Tempo.TempoConfig)
    (audio : List ℝ) (asr m : ℕ) (v : ℝ)
    (h2 : 2 ≤ peaks.length) (hchain : peaks.Chain' (· < ·))
    (hhop : 0 < hopLength) (hsr : 0 < sr) :
    (∃ raw, raw = 60 / ((((peaks.zip peaks.tail).map fun p => ((p.2 - p.1 : ℕ) : ℝ)).sum /
        ((((peaks.zip peaks.tail).map fun p => ((p.2 - p.1 : ℕ) : ℝ)).length : ℝ))) *
        ((hopLength : ℝ) / (sr : ℝ))) ∧
      ((Tempo.calculateTempoFromPeaks peaks hopLength sr cfg ∈ Tempo.octaveCandidates raw ∧
        (cfg.min_bpm ≤ Tempo.calculateTempoFromPeaks peaks hopLength sr cfg ∧
         Tempo.calculateTempoFromPeaks peaks hopLength sr cfg ≤ cfg.max_bpm) ∧
        ∀ c ∈ Tempo.octaveCandidates raw, (cfg.min_bpm ≤ c ∧ c ≤ cfg.max_bpm) →
          Tempo.tempoScore (Tempo.calculateTempoFromPeaks peaks hopLength sr cfg) ≤
            Tempo.tempoScore c) ∨
       (Tempo.calculateTempoFromPeaks peaks hopLength sr cfg = 120 ∧
        ∀ c ∈ Tempo.octaveCandidates raw, ¬ (cfg.min_bpm ≤ c ∧ c ≤ cfg.max_bpm)))) ∧
    ((Tempo.computeSpectralFlux audio cfg.n_fft cfg.hop_length).length < 2 →
      Tempo.detectTempo audio asr cfg = 120) ∧
    ((Tempo.detectFluxPeaks (Tempo.computeSpectralFlux audio cfg.n_fft cfg.hop_length)
        cfg.threshold_multiplier).length < 2 → Tempo.detectTempo audio asr cfg = 120) ∧
    (Tempo.computeSpectralFlux audio cfg.n_fft cfg.hop_length = List.replicate m v →
      Tempo.detectTempo audio asr cfg = 120) ∧
    (∃ t r d s, Analyzer.analyzeTemporal audio asr = .ok (t, r, d, s) ∧ 40 ≤ t ∧ t ≤ 200) := by
  refine ⟨⟨_, rfl, ?_⟩, ?_, ?_, ?_, ?_⟩
  · have hbeat := Tempo.beat_interval_pos peaks hopLength sr h2 hchain hhop hsr
    rw [Tempo.calculateTempoFromPeaks, if_neg (by omega : ¬ peaks.length < 2)]
    simp only
    rw [if_pos hbeat]
    rcases Tempo.selectTempoCandidate_spec cfg (Tempo.octaveCandidates
      (60 / ((((peaks.zip peaks.tail).map fun p => ((p.2 - p.1 : ℕ) : ℝ)).sum /
        ((((peaks.zip peaks.tail).map fun p => ((p.2 - p.1 : ℕ) : ℝ)).length : ℝ))) *
        ((hopLength : ℝ) / (sr : ℝ))))) with ⟨hall, hv⟩ | ⟨hmem, hrange, hmin⟩
    · exact Or.inr ⟨hv, hall⟩
    · exact Or.inl ⟨hmem, hrange, hmin⟩
  · intro hlt
    rw [Tempo.detectTempo]
    by_cases h0 : audio = [] ∨ audio.length < cfg.n_fft
    · rw [if_pos h0]
    · rw [if_neg h0]
      simp only
      rw [if_pos hlt]
  · intro hlt
    rw [Tempo.detectTempo]
    by_cases h0 : audio = [] ∨ audio.length < cfg.n_fft
    · rw [if_pos h0]
    · rw [if_neg h0]
      simp only
      by_cases hf2 : (Tempo.computeSpectralFlux audio cfg.n_fft cfg.hop_length).length < 2
      · rw [if_pos hf2]
      · rw [if_neg hf2, if_pos hlt]
  · intro heq
    rw [Tempo.detectTempo]
    by_cases h0 : audio = [] ∨ audio.length < cfg.n_fft
    · rw [if_pos h0]
    · rw [if_neg h0]
      simp only [heq]
      by_cases hm2 : (List.replicate m v).length < 2
      · rw [if_pos hm2]
      · rw [if_neg hm2, Tempo.detectFluxPeaks_replicate]
        rw [if_pos (by simp)]
  · rw [Analyzer.analyzeTemporal, Analyzer.estimateTempo_eq]
    refine ⟨_, _, _, _, rfl, rclamp_low _ 40 200 (by norm_num), rclamp_high _ 40 200⟩

/-- C3 (witness): the octave-correction theorem applied to the concrete peak
list `[0, 1]` with hop 512, sample rate 1024, and the default configuration. -/
theorem C3_octave_correction_witness :
    (2 ≤ ([0, 1] : List ℕ).length ∧ ([0, 1] : List ℕ).Chain' (· < ·) ∧
      0 < (512 : ℕ) ∧ 0 < (1024 : ℕ)) ∧
    ((∃ raw, raw = 60 / (((((([0, 1] : List ℕ)).zip ([0, 1] : List ℕ).tail).map
          fun p => ((p.2 - p.1 : ℕ) : ℝ)).sum /
        ((((([0, 1] : List ℕ).zip ([0, 1] : List ℕ).tail).map
          fun p => ((p.2 - p.1 : ℕ) : ℝ)).length : ℝ))) *
        ((512 : ℝ) / (1024 : ℝ))) ∧
      ((Tempo.calculateTempoFromPeaks [0, 1] 512 1024 Tempo.TempoConfig.default ∈
          Tempo.octaveCandidates raw ∧
        (Tempo.TempoConfig.default.min_bpm ≤
          Tempo.calculateTempoFromPeaks [0, 1] 512 1024 Tempo.TempoConfig.default ∧
         Tempo.calculateTempoFromPeaks [0, 1] 512 1024 Tempo.TempoConfig.default ≤
          Tempo.TempoConfig.default.max_bpm) ∧
        ∀ c ∈ Tempo.octaveCandidates raw,
          (Tempo.TempoConfig.default.min_bpm ≤ c ∧ c ≤ Tempo.TempoConfig.default.max_bpm) →
          Tempo.tempoScore (Tempo.calculateTempoFromPeaks [0, 1] 512 1024
            Tempo.TempoConfig.default) ≤ Tempo.tempoScore c) ∨
       (Tempo.calculateTempoFromPeaks [0, 1] 512 1024 Tempo.TempoConfig.default = 120 ∧
        ∀ c ∈ Tempo.octaveCandidates raw,
          ¬ (Tempo.TempoConfig.default.min_bpm ≤ c ∧ c ≤ Tempo.TempoConfig.default.max_bpm)))) ∧
    ((Tempo.computeSpectralFlux [] Tempo.TempoConfig.default.n_fft
        Tempo.TempoConfig.default.hop_length).length < 2 →
      Tempo.detectTempo [] 44100 Tempo.TempoConfig.default = 120) ∧
    ((Tempo.detectFluxPeaks (Tempo.computeSpectralFlux [] Tempo.TempoConfig.default.n_fft
        Tempo.TempoConfig.default.hop_length)
        Tempo.TempoConfig.default.threshold_multiplier).length < 2 →
      Tempo.detectTempo [] 44100 Tempo.TempoConfig.default = 120) ∧
    (Tempo.computeSpectralFlux [] Tempo.TempoConfig.default.n_fft
        Tempo.TempoConfig.default.hop_length = List.replicate 0 (0 : ℝ) →
      Tempo.detectTempo [] 44100 Tempo.TempoConfig.default = 120) ∧
    (∃ t r d s, Analyzer.analyzeTemporal [] 44100 = .ok (t, r, d, s) ∧ 40 ≤ t ∧ t ≤ 200)) :=
  ⟨⟨by norm_num, List.chain'_pair.mpr (by norm_num), by norm_num, by norm_num⟩,
   C3_octave_correction_and_fallbacks [0, 1] 512 1024 Tempo.TempoConfig.default [] 44100 0 0
     (by norm_num) (List.chain'_pair.mpr (by norm_num)) (by norm_num) (by norm_num)⟩

namespace Yin

lemma find?_range'_some (p : ℕ → Bool) :
    ∀ (n s a : ℕ), (List.range' s n).find? p = some a →
      s ≤ a ∧ a < s + n ∧ p a = true ∧ ∀ b, s ≤ b → b < a → p b = false := by
  intro n
  induction n with
  | zero => intro s a h; simp [List.range'] at h
  | succ m ih =>
    intro s a h
    rw [List.range'_succ, List.find?_cons] at h
    by_cases hp : p s
    · simp only [hp, cond_true] at h
      injection h with h'
      subst h'
      exact ⟨le_refl _, by omega, hp, fun b hb1 hb2 => absurd hb1 (by omega)⟩
    · simp only [Bool.not_eq_true] at hp
      simp only [hp, cond_false] at h
      obtain ⟨ha1, ha2, ha3, ha4⟩ := ih (s + 1) a h
      refine ⟨by omega, by omega, ha3, ?_⟩
      intro b hb1 hb2
      rcases Nat.eq_or_lt_of_le hb1 with rfl | hb
      · exact hp
      · exact ha4 b (by omega) hb2

lemma findTrough_some_spec (aacf : List ℝ) (minLag maxLag : ℕ) (threshold : ℝ) (tau : ℕ)
    (h : findTrough aacf minLag maxLag threshold = some tau) :
    minLag ≤ tau ∧ tau < min maxLag aacf.length ∧ aacf.getD tau 0 < threshold ∧
      ∀ t, minLag ≤ t → t < tau → ¬ (aacf.getD t 0 < threshold) := by
  rw [findTrough] at h
  by_cases h0 : aacf.length ≤ minLag ∨ maxLag ≤ minLag
  · rw [if_pos h0] at h
    exact absurd h (by simp)
  · rw [if_neg h0] at h
    push_neg at h0
    have hse : minLag ≤ min maxLag aacf.length := le_min (by omega) (by omega)
    obtain ⟨h1, h2, h3, h4⟩ := find?_range'_some _ _ _ _ h
    refine ⟨h1, by omega, of_decide_eq_true h3, ?_⟩
    intro t ht1 ht2
    have := h4 t ht1 ht2
    simpa using this

lemma findTrough_none_spec (aacf : List ℝ) (minLag maxLag : ℕ) (threshold : ℝ)
    (h : findTrough aacf minLag maxLag threshold = none) :
    ∀ t, minLag ≤ t → t < min maxLag aacf.length → ¬ (aacf.getD t 0 < threshold) := by
  rw [findTrough] at h
  by_cases h0 : aacf.length ≤ minLag ∨ maxLag ≤ minLag
  · intro t ht1 ht2
    exfalso
    rcases h0 with h0 | h0
    · have := min_le_right maxLag aacf.length
      omega
    · have := min_le_left maxLag aacf.length
      omega
  · rw [if_neg h0] at h
    push_neg at h0
    intro t ht1 ht2
    have hmem : t ∈ List.range' minLag (min maxLag aacf.length - minLag) := by
      rw [List.mem_range'_1]
      omega
    have := List.find?_eq_none.1 h t hmem
    simpa using this

lemma parabolicInterpolate_offset (aacf : List ℝ) (tau : ℕ) :
    ∃ offset : ℝ, -0.5 ≤ offset ∧ offset ≤ 0.5 ∧
      parabolicInterpolate aacf tau = (tau : ℝ) + offset := by
  rw [parabolicInterpolate]
  by_cases hb : tau = 0 ∨ aacf.length - 1 ≤ tau
  · exact ⟨0, by norm_num, by norm_num, by rw [if_pos hb]; ring⟩
  · rw [if_neg hb]
    by_cases hd : |2 * (aacf.getD (tau - 1) 0 - 2 * aacf.getD tau 0 + aacf.getD (tau + 1) 0)| < 1e-10
    · exact ⟨0, by norm_num, by norm_num, by rw [if_pos hd]; ring⟩
    · refine ⟨Analyzer.rclamp ((aacf.getD (tau - 1) 0 - aacf.getD (tau + 1) 0) /
        (2 * (aacf.getD (tau - 1) 0 - 2 * aacf.getD tau 0 + aacf.getD (tau + 1) 0)))
        (-0.5) 0.5, rclamp_low _ _ _ (by norm_num), rclamp_high _ _ _, ?_⟩
      rw [if_neg hd]

/-- The list-ext core of the schedule model: folding index writes over any
permutation of `range n` recovers the in-order map. -/
lemma foldl_set_length {α : Type} (f : ℕ → α) :
    ∀ (order : List ℕ) (acc : List α),
      (order.foldl (fun a i => a.set i (f i)) acc).length = acc.length := by
  intro order
  induction order with
  | nil => intro acc; rfl
  | cons j rest ih =>
    intro acc
    rw [List.foldl_cons, ih, List.length_set]

lemma foldl_set_getD {α : Type} (f : ℕ → α) (d : α) :
    ∀ (order : List ℕ) (acc : List α) (i : ℕ), i < acc.length →
      (order.foldl (fun a j => a.set j (f j)) acc).getD i d =
        if i ∈ order then f i else acc.getD i d := by
  intro order
  induction order with
  | nil => intro acc i hi; simp
  | cons j rest ih =>
    intro acc i hi
    rw [List.foldl_cons, ih _ _ (by rw [List.length_set]; exact hi)]
    by_cases hmem : i ∈ rest
    · rw [if_pos hmem, if_pos (List.mem_cons_of_mem _ hmem)]
    · rw [if_neg hmem]
      by_cases hij : i = j
      · subst hij
        rw [if_pos (List.mem_cons_self _ _)]
        rw [List.getD_eq_getElem _ _ (by rw [List.length_set]; exact hi)]
        exact List.getElem_set_self _
      · rw [if_neg (by simp only [List.mem_cons]; push_neg; exact ⟨hij, hmem⟩)]
        rw [List.getD_eq_getElem _ _ (by rw [List.length_set]; exact hi),
          List.getD_eq_getElem _ _ hi]
        exact List.getElem_set_ne (fun h => hij h.symm) _

lemma runSchedule_eq_map {α : Type} (f : ℕ → α) (d : α) (n : ℕ) (order : List ℕ)
    (h : order.Perm (List.range n)) :
    runSchedule f d n order = (List.range n).map f := by
  apply List.ext_getElem
  · rw [runSchedule, foldl_set_length, List.length_replicate, List.length_map,
      List.length_range]
  · intro i h1 h2
    have hi : i < n := by
      rw [runSchedule, foldl_set_length, List.length_replicate] at h1
      exact h1
    have hgd := foldl_set_getD f d order (List.replicate n d) i
      (by rw [List.length_replicate]; exact hi)
    have hmem : i ∈ order := h.mem_iff.2 (List.mem_range.2 hi)
    rw [if_pos hmem] at hgd
    have hL : (runSchedule f d n order).getD i d = f i := by
      unfold runSchedule
      rw [hgd]
    rw [← List.getD_eq_getElem (runSchedule f d n order) d h1, hL,
      List.getElem_map, List.getElem_range]

lemma map_getD_range {α β : Type} (l : List α) (d : α) (F : α → β) :
    (List.range l.length).map (fun i => F (l.getD i d)) = l.map F := by
  apply List.ext_getElem
  · rw [List.length_map, List.length_range, List.length_map]
  · intro i h1 h2
    have hi : i < l.length := by
      rw [List.length_map, List.length_range] at h1
      exact h1
    rw [List.getElem_map, List.getElem_map, List.getElem_range,
      List.getD_eq_getElem _ _ hi]

end Yin

namespace Analyzer

lemma getD_replicate_zero_c (k n : ℕ) : (List.replicate k (0 : ℂ)).getD n 0 = 0 := by
  rcases Nat.lt_or_ge n k with h | h
  · exact Tempo.getD_replicate k 0 0 n h
  · exact List.getD_eq_default _ _ (by rw [List.length_replicate]; exact h)

lemma dft_replicate_zero (k : ℕ) : dft (List.replicate k 0) = List.replicate k 0 := by
  rw [dft, List.length_replicate]
  refine List.eq_replicate.2 ⟨by rw [List.length_map, List.length_range], ?_⟩
  intro b hb
  simp only [List.mem_map] at hb
  obtain ⟨j, -, rfl⟩ := hb
  refine List.sum_eq_zero ?_
  intro x hx
  simp only [List.mem_map] at hx
  obtain ⟨n, -, rfl⟩ := hx
  rw [getD_replicate_zero_c, zero_mul]

lemma zipWith_ofReal_zero (w : List ℝ) :
    ∀ (j : ℕ), List.zipWith (fun s w => Complex.ofReal (s * w)) (List.replicate j (0 : ℝ)) w =
      List.replicate (min j w.length) 0 := by
  induction w with
  | nil => intro j; cases j <;> simp
  | cons x xs ih =>
    intro j
    cases j with
    | zero => simp
    | succ j' =>
      simp only [List.replicate_succ, List.zipWith_cons_cons, List.length_cons, ih j',
        Nat.succ_min_succ, List.replicate_succ]
      norm_num

lemma windowedInput_replicate_zero (m : ℕ) :
    windowedInput (List.replicate m 0) = List.replicate (min m FFT_SIZE) 0 := by
  rw [windowedInput, List.take_replicate, zipWith_ofReal_zero]
  rw [List.length_map, List.length_range]
  rw [min_comm FFT_SIZE m, min_assoc, min_self]

lemma fftMagnitudes_replicate_zero (m : ℕ) (hm : FFT_SIZE ≤ m) :
    fftMagnitudes (List.replicate m 0) = List.replicate FFT_SIZE (1e-10 : ℝ) := by
  rw [fftMagnitudes, windowedInput_replicate_zero, min_eq_right hm, dft_replicate_zero,
    List.map_replicate]
  congr 1
  rw [map_zero, zero_div]
  rw [max_eq_right (by norm_num)]

lemma padded_replicate_zero (a : ℕ) (h : a ≤ FFT_SIZE) :
    List.replicate a (0 : ℂ) ++ List.replicate (FFT_SIZE - a) 0 =
      List.replicate FFT_SIZE 0 := by
  rw [← List.replicate_add]
  congr 1
  omega

lemma stftFrameMags_replicate_zero (m start : ℕ) :
    stftFrameMags (List.replicate m 0) start = List.replicate (FFT_SIZE / 2) (1e-10 : ℝ) := by
  rw [stftFrameMags, List.length_replicate, List.drop_replicate, List.take_replicate,
    zipWith_ofReal_zero]
  rw [List.length_map, List.length_range, List.length_replicate]
  rw [padded_replicate_zero _ (min_le_right _ _)]
  rw [dft_replicate_zero, List.take_replicate, List.map_replicate]
  congr 1
  rw [map_zero, zero_div, max_eq_right (by norm_num)]

lemma rmsOf_replicate_zero (n : ℕ) : rmsOf (List.replicate n 0) = 0 := by
  rw [rmsOf, List.map_replicate, mul_zero, List.sum_replicate, smul_zero, zero_div,
    Real.sqrt_zero]

lemma zip_replicate_right {α β : Type} (c : β) :
    ∀ (l : List α) (k : ℕ), l.length ≤ k →
      l.zip (List.replicate k c) = l.map fun a => (a, c) := by
  intro l
  induction l with
  | nil => intro k _; simp
  | cons x xs ih =>
    intro k hk
    cases k with
    | zero => exact absurd hk (by simp)
    | succ m =>
      rw [List.replicate_succ, List.zip_cons_cons, List.map_cons, ih m (by simpa using hk)]

lemma fftFreqs_length (sr : ℕ) : (fftFreqs sr).length = FFT_SIZE / 2 := by
  rw [fftFreqs, List.length_map, List.length_range]

lemma band_pred_bridge (sr lo hi k : ℕ) :
    ((lo : ℝ) ≤ (k : ℝ) * (sr : ℝ) / (FFT_SIZE : ℝ) ∧
      (k : ℝ) * (sr : ℝ) / (FFT_SIZE : ℝ) < (hi : ℝ)) ↔
      (lo * 2048 ≤ k * sr ∧ k * sr < hi * 2048) := by
  have h : ((FFT_SIZE : ℕ) : ℝ) = 2048 := by rw [FFT_SIZE]; norm_num
  rw [h, le_div_iff (by norm_num : (0:ℝ) < 2048), div_lt_iff (by norm_num : (0:ℝ) < 2048)]
  constructor
  · rintro ⟨h1, h2⟩
    exact ⟨by exact_mod_cast h1, by exact_mod_cast h2⟩
  · rintro ⟨h1, h2⟩
    exact ⟨by exact_mod_cast h1, by exact_mod_cast h2⟩

lemma band_zip_sum (sr lo hi : ℕ) :
    ∀ (ks : List ℕ) (m : ℕ), ks.length ≤ m →
      (((ks.map fun k : ℕ => (k : ℝ) * (sr : ℝ) / (FFT_SIZE : ℝ)).zip
          (List.replicate m (1e-10 : ℝ))).map
        fun p => if (lo : ℝ) ≤ p.1 ∧ p.1 < (hi : ℝ) then max p.2 0 else 0).sum =
      ((ks.filter fun k => decide (lo * 2048 ≤ k * sr ∧ k * sr < hi * 2048)).length : ℝ)
        * 1e-10 := by
  intro ks
  induction ks with
  | nil => intro m _; simp
  | cons k ks ih =>
    intro m hm
    cases m with
    | zero => exact absurd hm (by simp)
    | succ m' =>
      rw [List.map_cons, List.replicate_succ, List.zip_cons_cons, List.map_cons, List.sum_cons,
        ih m' (by simpa using hm), List.filter_cons]
      dsimp only
      by_cases hk : lo * 2048 ≤ k * sr ∧ k * sr < hi * 2048
      · rw [if_pos ((band_pred_bridge sr lo hi k).2 hk), if_pos (decide_eq_true hk),
          List.length_cons, max_eq_left (by norm_num : (0:ℝ) ≤ 1e-10)]
        push_cast
        ring
      · rw [if_neg fun hh => hk ((band_pred_bridge sr lo hi k).1 hh),
          if_neg (by simp [hk]), zero_add]

lemma bandEnergy_replicate (sr lo hi : ℕ) :
    bandEnergy (fftFreqs sr) (List.replicate FFT_SIZE (1e-10 : ℝ)) (lo : ℝ) (hi : ℝ) =
      (bandBinCount sr lo hi : ℝ) * 1e-10 := by
  rw [bandEnergy, fftFreqs,
    band_zip_sum sr lo hi _ _ (by rw [List.length_range, FFT_SIZE]; norm_num),
    bandBinCount, show FFT_SIZE / 2 = 1024 from by rw [FFT_SIZE]]

lemma totalEnergy_replicate_c :
    totalEnergy (List.replicate FFT_SIZE (1e-10 : ℝ)) = 2048 * 1e-10 := by
  rw [totalEnergy, List.map_replicate]
  rw [max_eq_left (by norm_num : (0:ℝ) ≤ 1e-10), List.sum_replicate, nsmul_eq_mul, FFT_SIZE]
  norm_num

lemma bandPct_replicate_eval (sr lo hi : ℕ) :
    bandPct (fftFreqs sr) (List.replicate FFT_SIZE (1e-10 : ℝ)) (lo : ℝ) (hi : ℝ) =
      (bandBinCount sr lo hi : ℝ) * 100 / 2048 := by
  have hcount : (bandBinCount sr lo hi : ℝ) ≤ 1024 := by
    have h1 : bandBinCount sr lo hi ≤ 1024 := by
      rw [bandBinCount]
      calc ((List.range 1024).filter _).length ≤ (List.range 1024).length :=
            List.length_filter_le _ _
        _ = 1024 := List.length_range 1024
    exact_mod_cast h1
  simp only [bandPct]
  rw [totalEnergy_replicate_c, if_pos (by norm_num : (0:ℝ) < 2048 * 1e-10),
    bandEnergy_replicate]
  have hval : (bandBinCount sr lo hi : ℝ) * 1e-10 / (2048 * 1e-10) * 100 =
      (bandBinCount sr lo hi : ℝ) * 100 / 2048 := by
    field_simp
    ring
  have h100 : (bandBinCount sr lo hi : ℝ) * 100 / 2048 ≤ 100 := by
    rw [div_le_iff (by norm_num : (0:ℝ) < 2048)]
    nlinarith [hcount]
  have h0 : (0:ℝ) ≤ (bandBinCount sr lo hi : ℝ) * 100 / 2048 :=
    div_nonneg (mul_nonneg (Nat.cast_nonneg _) (by norm_num)) (by norm_num)
  rw [hval, max_eq_left h0, min_eq_left h100]

lemma rolloffLoop_bounds :
    ∀ (l : List ℝ) (t : ℝ) (k : ℕ) (c : ℝ),
      0 ≤ rolloffLoop l t k c ∧ rolloffLoop l t k c ≤ 1 := by
  intro l
  induction l with
  | nil => intro t k c; rw [rolloffLoop]; norm_num
  | cons e rest ih =>
    intro t k c
    rw [rolloffLoop]
    by_cases h : t * 0.95 < c + e
    · rw [if_pos h]
      refine ⟨le_min ?_ (by norm_num), min_le_right _ _⟩
      exact div_nonneg (Nat.cast_nonneg _) (div_nonneg (Nat.cast_nonneg _) (by norm_num))
    · rw [if_neg h]
      exact ih t (k + 1) (c + e)

lemma centroidOf_bounds (l : List ℝ) (hnn : ∀ x ∈ l, 0 ≤ x) (hsum : l.sum ≠ 0) :
    0 ≤ centroidOf l ∧ centroidOf l ≤ 1 := by
  have hpos : 0 < l.sum := lt_of_le_of_ne (List.sum_nonneg hnn) (Ne.symm hsum)
  have hws : 0 ≤ (l.enum.map fun p => (p.1 : ℝ) * p.2).sum := by
    refine List.sum_nonneg ?_
    intro x hx
    simp only [List.mem_map] at hx
    obtain ⟨⟨i, a⟩, hp, rfl⟩ := hx
    rw [List.enum_eq_zip_range] at hp
    exact mul_nonneg (Nat.cast_nonneg _) (hnn _ (List.of_mem_zip hp).2)
  simp only [centroidOf]
  refine ⟨le_min ?_ (by norm_num), min_le_right _ _⟩
  exact div_nonneg (div_nonneg hws hpos.le)
    (div_nonneg (Nat.cast_nonneg _) (by norm_num))

lemma flatnessOf_bounds (l : List ℝ) : 0 ≤ flatnessOf l ∧ flatnessOf l ≤ 1 := by
  simp only [flatnessOf]
  by_cases h : 0 < l.sum / (l.length : ℝ)
  · rw [if_pos h]
    exact ⟨le_max_right _ _, max_le (min_le_right _ _) (by norm_num)⟩
  · rw [if_neg h]
    norm_num

lemma analyzeSpectralStats_ok (l : List ℝ) (hnn : ∀ x ∈ l, 0 ≤ x) :
    ∃ v : ℝ × ℝ × ℝ, analyzeSpectralStats l = .ok v ∧
      0 ≤ v.1 ∧ v.1 ≤ 1 ∧ 0 ≤ v.2.1 ∧ v.2.1 ≤ 1 ∧ 0 ≤ v.2.2 ∧ v.2.2 ≤ 1 := by
  rw [analyzeSpectralStats]
  by_cases h1 : l = []
  · rw [if_pos h1]
    exact ⟨(0.5, 0.5, 0.5), rfl, by norm_num, by norm_num, by norm_num, by norm_num,
      by norm_num, by norm_num⟩
  · rw [if_neg h1]
    by_cases h2 : l.sum = 0
    · rw [if_pos h2]
      exact ⟨(0.5, 0.5, 0.5), rfl, by norm_num, by norm_num, by norm_num, by norm_num,
        by norm_num, by norm_num⟩
    · rw [if_neg h2]
      obtain ⟨hc0, hc1⟩ := centroidOf_bounds l hnn h2
      obtain ⟨hr0, hr1⟩ := rolloffLoop_bounds l l.sum 0 0
      obtain ⟨hf0, hf1⟩ := flatnessOf_bounds l
      exact ⟨_, rfl, hc0, hc1, hr0, hr1, hf0, hf1⟩

lemma stftFrameMags_mem_nonneg (samples : List ℝ) (start : ℕ) :
    ∀ x ∈ stftFrameMags samples start, 0 ≤ x := by
  intro x hx
  simp only [stftFrameMags, List.mem_map] at hx
  obtain ⟨c, -, rfl⟩ := hx
  exact le_trans (by norm_num) (le_max_right _ _)

lemma zipWith_add_nonneg :
    ∀ (a b : List ℝ), (∀ x ∈ a, 0 ≤ x) → (∀ x ∈ b, 0 ≤ x) →
      ∀ x ∈ List.zipWith (· + ·) a b, 0 ≤ x := by
  intro a
  induction a with
  | nil => intro b _ _ x hx; simp at hx
  | cons y ys ih =>
    intro b hy hb x hx
    cases b with
    | nil => simp at hx
    | cons z zs =>
      rw [List.zipWith_cons_cons] at hx
      rcases List.mem_cons.1 hx with rfl | hx'
      · exact add_nonneg (hy y (by simp)) (hb z (by simp))
      · exact ih zs (fun u hu => hy u (by simp [hu])) (fun u hu => hb u (by simp [hu])) x hx'

lemma foldl_zipWith_nonneg :
    ∀ (frames : List (List ℝ)) (acc : List ℝ),
      (∀ f ∈ frames, ∀ x ∈ f, 0 ≤ x) → (∀ x ∈ acc, 0 ≤ x) →
      ∀ x ∈ frames.foldl (fun acc f => acc.zipWith (· + ·) f) acc, 0 ≤ x := by
  intro frames
  induction frames with
  | nil =>
    intro acc _ hacc x hx
    rw [List.foldl_nil] at hx
    exact hacc x hx
  | cons f fs ih =>
    intro acc hf hacc x hx
    rw [List.foldl_cons] at hx
    exact ih _ (fun g hg => hf g (by simp [hg]))
      (zipWith_add_nonneg acc f hacc (hf f (by simp))) x hx

lemma avgSpectrumOf_nonneg (samples : List ℝ) : ∀ x ∈ avgSpectrumOf samples, 0 ≤ x := by
  intro x hx
  rw [avgSpectrumOf] at hx
  simp only [List.mem_map] at hx
  obtain ⟨y, hy, rfl⟩ := hx
  have hy0 : 0 ≤ y := by
    rw [sumSpectrumOf] at hy
    refine foldl_zipWith_nonneg _ _ ?_ ?_ y hy
    · intro f hf
      rw [stftFrames] at hf
      simp only [List.mem_map] at hf
      obtain ⟨s, -, rfl⟩ := hf
      exact stftFrameMags_mem_nonneg samples s
    · intro u hu
      exact le_of_eq (List.eq_of_mem_replicate hu).symm
  exact div_nonneg hy0 (Nat.cast_nonneg _)

lemma computeStftSpectralAnalysis_ok (samples : List ℝ) (sr : ℕ) :
    ∃ v : ℝ × ℝ × ℝ, computeStftSpectralAnalysis samples sr = .ok v ∧
      0 ≤ v.1 ∧ v.1 ≤ 1 ∧ 0 ≤ v.2.1 ∧ v.2.1 ≤ 1 ∧ 0 ≤ v.2.2 ∧ v.2.2 ≤ 1 := by
  rw [computeStftSpectralAnalysis]
  by_cases h : (stftFrames samples).length = 0
  · rw [if_pos h]
    exact ⟨(0.5, 0.5, 0.5), rfl, by norm_num, by norm_num, by norm_num, by norm_num,
      by norm_num, by norm_num⟩
  · rw [if_neg h]
    exact analyzeSpectralStats_ok _ (avgSpectrumOf_nonneg samples)

lemma bandPct_bounds (freqs mag : List ℝ) (lo hi : ℝ) :
    0 ≤ bandPct freqs mag lo hi ∧ bandPct freqs mag lo hi ≤ 100 := by
  simp only [bandPct]
  exact ⟨minmax_low _ _ _ (by norm_num), minmax_high _ _ _⟩

lemma rhythmStabilityOf_bounds (samples : List ℝ) (sr : ℕ) :
    0 ≤ rhythmStabilityOf samples sr ∧ rhythmStabilityOf samples sr ≤ 1 := by
  simp only [rhythmStabilityOf]
  by_cases h : 1 < ((chunksList samples (sr / 10)).map rmsOf).length
  · rw [if_pos h]
    exact ⟨minmax_low _ _ _ (by norm_num), minmax_high _ _ _⟩
  · rw [if_neg h]
    norm_num

lemma transientDensityOf_bounds (samples : List ℝ) (sr : ℕ) :
    0 ≤ transientDensityOf samples sr ∧ transientDensityOf samples sr ≤ 1 := by
  simp only [transientDensityOf]
  exact ⟨minmax_low _ _ _ (by norm_num), minmax_high _ _ _⟩

lemma silenceRatioOf_bounds (samples : List ℝ) :
    0 ≤ silenceRatioOf samples ∧ silenceRatioOf samples ≤ 1 := by
  simp only [silenceRatioOf]
  by_cases h1 : 0 < rmsOf samples
  · rw [if_pos h1]
    by_cases h2 : 20 * Real.logb 10 (rmsOf samples) < -60
    · rw [if_pos h2]
      norm_num
    · rw [if_neg h2]
      exact ⟨minmax_low _ _ _ (by norm_num), minmax_high _ _ _⟩
  · rw [if_neg h1]
    norm_num

lemma analyzeFingerprint_ok (samples : List ℝ) (sr : ℕ) (hne : samples ≠ [])
    (hlen : ¬ samples.length < FFT_SIZE) :
    ∃ spec : ℝ × ℝ × ℝ,
      computeStftSpectralAnalysis samples sr = .ok spec ∧
      (0 ≤ spec.1 ∧ spec.1 ≤ 1 ∧ 0 ≤ spec.2.1 ∧ spec.2.1 ≤ 1 ∧
        0 ≤ spec.2.2 ∧ spec.2.2 ≤ 1) ∧
      analyzeFingerprint samples sr = .ok {
        sub_bass_pct := bandPct (fftFreqs sr) (fftMagnitudes samples) 20 60
        bass_pct := bandPct (fftFreqs sr) (fftMagnitudes samples) 60 250
        low_mid_pct := bandPct (fftFreqs sr) (fftMagnitudes samples) 250 500
        mid_pct := bandPct (fftFreqs sr) (fftMagnitudes samples) 500 2000
        upper_mid_pct := bandPct (fftFreqs sr) (fftMagnitudes samples) 2000 4000
        presence_pct := bandPct (fftFreqs sr) (fftMagnitudes samples) 4000 6000
        air_pct := bandPct (fftFreqs sr) (fftMagnitudes samples) 6000 20000
        lufs := rclamp (lufsOf samples) (-120) 0
        crest_db := rclamp (crestOf samples) 0 50
        bass_mid_ratio := rclamp (bmrOf (fftMagnitudes samples) (fftFreqs sr)) (-40) 40
        tempo_bpm := rclamp (tempoValue samples.length sr) 40 200
        rhythm_stability := rhythmStabilityOf samples sr
        transient_density := transientDensityOf samples sr
        silence_ratio := silenceRatioOf samples
        spectral_centroid := spec.1
        spectral_rolloff := spec.2.1
        spectral_flatness := spec.2.2
        harmonic_ratio := min (max (harmonicRatioOf (fftMagnitudes samples)) 0) 1
        pitch_stability := min (max (0.5 : ℝ) 0) 1
        chroma_energy := min (max (chromaNormOf (fftMagnitudes samples) sr) 0) 1
        dynamic_range_variation := min (max (dynamicRangeVariationOf samples sr) 0) 1
        loudness_variation_std := min (max (loudnessVariationStdOf samples sr) 0) 10
        peak_consistency := min (max (peakConsistencyOf samples sr) 0) 1
        stereo_width := 0
        phase_correlation := 1 } := by
  obtain ⟨spec, hspec, hb⟩ := computeStftSpectralAnalysis_ok samples sr
  refine ⟨spec, hspec, hb, ?_⟩
  have hfft : computeFFTSpectrum samples sr = .ok (fftMagnitudes samples, fftFreqs sr) := by
    rw [computeFFTSpectrum, if_neg hlen]
  have htemp : analyzeTemporal samples sr = .ok
      (rclamp (tempoValue samples.length sr) 40 200, rhythmStabilityOf samples sr,
       transientDensityOf samples sr, silenceRatioOf samples) := by
    rw [analyzeTemporal, estimateTempo_eq]
  have hharm : analyzeHarmonic samples sr = .ok
      (min (max (harmonicRatioOf (fftMagnitudes samples)) 0) 1, min (max (0.5 : ℝ) 0) 1,
       min (max (chromaNormOf (fftMagnitudes samples) sr) 0) 1) := by
    rw [analyzeHarmonic, hfft]
  rw [analyzeFingerprint, if_neg hne, hfft, hspec, htemp, hharm]
  rfl

lemma stftStarts_nil (len : ℕ) (h : len < FFT_SIZE / 2) : stftStarts len = [] := by
  rw [stftStarts]
  rcases Nat.eq_zero_or_pos ((len + HOP_LENGTH - 1) / HOP_LENGTH) with h0 | hpos
  · rw [h0]
    rfl
  · obtain ⟨m, hm⟩ : ∃ m, (len + HOP_LENGTH - 1) / HOP_LENGTH = m + 1 :=
      ⟨_, (Nat.succ_pred_eq_of_pos hpos).symm⟩
    have hc : ¬ (0 * HOP_LENGTH + FFT_SIZE / 2 ≤ len) := by
      simp only [FFT_SIZE, HOP_LENGTH] at h ⊢
      omega
    rw [hm, List.range_succ_eq_map, List.map_cons, List.takeWhile_cons,
      if_neg (by simpa using hc)]

lemma zipWith_add_replicate (k : ℕ) (a b : ℝ) :
    List.zipWith (· + ·) (List.replicate k a) (List.replicate k b) =
      List.replicate k (a + b) := by
  induction k with
  | zero => rfl
  | succ m ih => simp [List.replicate_succ, ih]

lemma range_cast_mul_sum (k : ℕ) (c : ℝ) :
    ((List.range k).map fun (i : ℕ) => (i : ℝ) * c).sum = (k : ℝ) * ((k : ℝ) - 1) / 2 * c := by
  induction k with
  | zero => norm_num
  | succ m ih =>
    rw [List.range_succ, List.map_append, List.sum_append, ih, List.map_singleton,
      List.sum_singleton]
    push_cast
    ring

lemma enum_replicate (k : ℕ) (c : ℝ) :
    (List.replicate k c).enum = (List.range k).map fun (i : ℕ) => (i, c) := by
  rw [List.enum_eq_zip_range, List.length_replicate,
    zip_replicate_right c (List.range k) k (by rw [List.length_range])]

lemma stftFrames_1024 :
    stftFrames (List.replicate 1024 (0:ℝ)) = [List.replicate (FFT_SIZE / 2) (1e-10 : ℝ)] := by
  have hstarts : stftStarts 1024 = [0] := by decide
  rw [stftFrames, List.length_replicate, hstarts, List.map_cons, List.map_nil,
    stftFrameMags_replicate_zero]

lemma avgSpectrumOf_1024 :
    avgSpectrumOf (List.replicate 1024 (0:ℝ)) =
      List.replicate (FFT_SIZE / 2) (1e-10 : ℝ) := by
  rw [avgSpectrumOf, sumSpectrumOf, stftFrames_1024, List.foldl_cons, List.foldl_nil,
    zipWith_add_replicate, List.map_replicate]
  congr 1
  rw [List.length_singleton]
  norm_num

lemma centroid_1024_val :
    centroidOf (List.replicate 1024 (1e-10 : ℝ)) = 1023 / 2048 := by
  simp only [centroidOf]
  rw [enum_replicate, List.map_map]
  have hm : ((List.range 1024).map
        ((fun p : ℕ × ℝ => (p.1 : ℝ) * p.2) ∘ fun (i : ℕ) => (i, (1e-10:ℝ)))) =
      (List.range 1024).map fun (i : ℕ) => (i : ℝ) * 1e-10 := rfl
  rw [hm, range_cast_mul_sum, List.sum_replicate, nsmul_eq_mul,
    show ((FFT_SIZE : ℕ) : ℝ) = 2048 from by rw [FFT_SIZE]; norm_num]
  rw [min_eq_left (by norm_num)]
  norm_num

end Analyzer

/-- C9: per-frame YIN pitch detection: when the trough search finds the first
lag `τ` in the lag bounds whose cumulative-mean-normalized difference is
below the threshold, `process_frame` refines `τ` by parabolic interpolation
with the offset clamped to `[-0.5, 0.5]` and returns `sr / (τ + offset)`;
when no such lag exists the frame is unvoiced and yields 0. -/
theorem C9_yin_process_frame (frame : List ℝ) (sr : ℝ) (minLag maxLag : ℕ)
    (threshold : ℝ) (hsr : 0 < sr) (hmin : 2 ≤ minLag) :
    (∀ tau, Yin.findTrough (Yin.aacfOf frame) minLag maxLag threshold = some tau →
      minLag ≤ tau ∧ tau < min maxLag (Yin.aacfOf frame).length ∧
      (Yin.aacfOf frame).getD tau 0 < threshold ∧
      (∀ t, minLag ≤ t → t < tau → ¬ ((Yin.aacfOf frame).getD t 0 < threshold)) ∧
      ∃ offset : ℝ, -0.5 ≤ offset ∧ offset ≤ 0.5 ∧
        Yin.parabolicInterpolate (Yin.aacfOf frame) tau = (tau : ℝ) + offset ∧
        Yin.processFrame frame sr minLag maxLag threshold = sr / ((tau : ℝ) + offset)) ∧
    (Yin.findTrough (Yin.aacfOf frame) minLag maxLag threshold = none →
      Yin.processFrame frame sr minLag maxLag threshold = 0 ∧
      ∀ t, minLag ≤ t → t < min maxLag (Yin.aacfOf frame).length →
        ¬ ((Yin.aacfOf frame).getD t 0 < threshold)) := by
  constructor
  · intro tau htau
    obtain ⟨h1, h2, h3, h4⟩ := Yin.findTrough_some_spec _ _ _ _ _ htau
    obtain ⟨offset, ho1, ho2, ho3⟩ := Yin.parabolicInterpolate_offset (Yin.aacfOf frame) tau
    refine ⟨h1, h2, h3, h4, offset, ho1, ho2, ho3, ?_⟩
    rw [Yin.processFrame, htau]
    simp only [ho3]
    have htau2 : (2 : ℝ) ≤ (tau : ℝ) := by
      have : 2 ≤ tau := le_trans hmin h1
      exact_mod_cast this
    have hden : (0 : ℝ) < (tau : ℝ) + offset := by linarith
    rw [if_pos (div_pos hsr hden)]
  · intro hnone
    refine ⟨?_, Yin.findTrough_none_spec _ _ _ _ hnone⟩
    rw [Yin.processFrame, hnone]

/-- C9 (witness): the per-frame theorem applied at a concrete frame and
bounds. -/
theorem C9_yin_process_frame_witness :
    ((0 : ℝ) < 44100 ∧ (2 : ℕ) ≤ 2) ∧
    ((∀ tau, Yin.findTrough (Yin.aacfOf []) 2 100 0.15 = some tau →
      2 ≤ tau ∧ tau < min 100 (Yin.aacfOf []).length ∧
      (Yin.aacfOf []).getD tau 0 < 0.15 ∧
      (∀ t, 2 ≤ t → t < tau → ¬ ((Yin.aacfOf []).getD t 0 < 0.15)) ∧
      ∃ offset : ℝ, -0.5 ≤ offset ∧ offset ≤ 0.5 ∧
        Yin.parabolicInterpolate (Yin.aacfOf []) tau = (tau : ℝ) + offset ∧
        Yin.processFrame [] 44100 2 100 0.15 = 44100 / ((tau : ℝ) + offset)) ∧
    (Yin.findTrough (Yin.aacfOf []) 2 100 0.15 = none →
      Yin.processFrame [] 44100 2 100 0.15 = 0 ∧
      ∀ t, 2 ≤ t → t < min 100 (Yin.aacfOf []).length →
        ¬ ((Yin.aacfOf []).getD t 0 < 0.15))) :=
  ⟨⟨by norm_num, le_refl 2⟩, C9_yin_process_frame [] 44100 2 100 0.15 (by norm_num) (le_refl 2)⟩

/-- C4: the rayon loops of `yin` (per frame) and `convolve_cqt` (per bin)
write each task's result at its own index, so for every completion order
that is a permutation of the task indices the assembled output equals the
sequential in-order result: the analysis output does not depend on the
schedule (and hence not on the worker-pool size). -/
theorem C4_parallel_reassembly_deterministic
    (y : List ℝ) (sr : ℕ) (fmin fmax : ℝ) (order : List ℕ)
    (kernels : List (List ℂ)) (orderBins : List ℕ)
    (h1 : order.Perm (List.range ((y.length - 2048) / 512 + 1)))
    (h2 : orderBins.Perm (List.range kernels.length)) :
    Yin.yinScheduled y sr fmin fmax order = Yin.yin y sr fmin fmax ∧
    Chroma.convolveCqtScheduled y kernels orderBins = Chroma.convolveCqt y kernels := by
  constructor
  · rw [Yin.yinScheduled, Yin.yin]
    by_cases hlen : y.length < 2048
    · rw [if_pos hlen, if_pos hlen]
    · rw [if_neg hlen, if_neg hlen]
      simp only [Yin.lagBounds]
      by_cases hlag : min (Nat.floor ((sr : ℝ) / fmin)) 2047 ≤ max (Nat.floor ((sr : ℝ) / fmax)) 2
      · rw [if_pos hlag, if_pos hlag]
      · rw [if_neg hlag, if_neg hlag]
        exact Yin.runSchedule_eq_map _ 0 _ order h1
  · rw [Chroma.convolveCqtScheduled, Chroma.convolveCqt]
    rw [Yin.runSchedule_eq_map _ [] _ orderBins h2]
    exact Yin.map_getD_range kernels []
      (fun kernel => if kernel = [] then
        List.replicate (if 512 ≤ y.length then (y.length - 512) / 512 + 1 else 1) (0 : ℝ)
      else Chroma.convolveSingleBin y kernel 512)

/-- C4 (witness): the schedule-invariance theorem at a concrete input and a
concrete completion order. -/
theorem C4_parallel_reassembly_witness :
    (([0] : List ℕ).Perm (List.range ((([] : List ℝ).length - 2048) / 512 + 1)) ∧
     ([] : List ℕ).Perm (List.range ([] : List (List ℂ)).length)) ∧
    (Yin.yinScheduled [] 44100 50 2000 [0] = Yin.yin [] 44100 50 2000 ∧
     Chroma.convolveCqtScheduled [] [] [] = Chroma.convolveCqt [] []) :=
  ⟨⟨by decide, by decide⟩,
   C4_parallel_reassembly_deterministic [] 44100 50 2000 [0] [] []
     (by decide) (by decide)⟩

/-- C10 (counterexample): for the 2048-sample all-zero input at 44100 Hz there
are two hop-frames (2048/512 = 4 ≥ 2) but only one flux frame, so
`estimate_tempo` returns the 120 fallback while the claimed formula
`(flux_count/duration)·60` clamped to `[40, 200]` gives 200. -/
theorem C10_counterexample_two_hop_frames :
    Analyzer.estimateTempo (List.replicate 2048 (0 : ℝ)) 44100 = .ok 120 ∧
    2 ≤ 2048 / Analyzer.HOP_LENGTH ∧
    Analyzer.rclamp ((1 : ℝ) / ((2048 : ℝ) / (44100 : ℝ)) * 60) 40 200 = 200 ∧
    (120 : ℝ) ≠ 200 := by
  refine ⟨?_, by norm_num [Analyzer.HOP_LENGTH], ?_, by norm_num⟩
  · rw [Analyzer.estimateTempo_eq, List.length_replicate]
    norm_num [Analyzer.tempoValue, Analyzer.fluxFrameBound, Analyzer.FFT_SIZE,
      Analyzer.HOP_LENGTH]
  · rw [Analyzer.rclamp]
    rw [max_eq_left (by norm_num), min_eq_right (by norm_num)]

/-- C10 (amended): once the input holds at least two full flux frames
(`samples.len() ≥ FFT_SIZE + HOP_LENGTH`), the magnitude floor at `1e-10`
makes the mean spectral flux strictly positive, so `estimate_tempo` returns
`(flux_frame_count / duration_sec)·60` clamped to `[40, 200]`, a value
depending only on the input length and sample rate; consequently any two
inputs of equal length get the same tempo (the latter holds for all lengths). -/
theorem C10_tempo_content_independent (samples : List ℝ) (sr : ℕ) :
    (Analyzer.FFT_SIZE + Analyzer.HOP_LENGTH ≤ samples.length →
      Analyzer.estimateTempo samples sr =
        .ok (Analyzer.rclamp
          ((((samples.length - Analyzer.FFT_SIZE) / Analyzer.HOP_LENGTH + 1 : ℕ) : ℝ) /
            ((samples.length : ℝ) / (sr : ℝ)) * 60) 40 200)) ∧
    ∀ other : List ℝ, other.length = samples.length →
      Analyzer.estimateTempo other sr = Analyzer.estimateTempo samples sr := by
  constructor
  · intro h
    rw [Analyzer.estimateTempo_eq]
    simp only [Analyzer.FFT_SIZE, Analyzer.HOP_LENGTH] at h
    have hffb : Analyzer.fluxFrameBound samples.length = (samples.length - 2048) / 512 + 1 := by
      unfold Analyzer.fluxFrameBound
      simp only [Analyzer.FFT_SIZE, Analyzer.HOP_LENGTH]
      rw [if_pos (by omega)]
    unfold Analyzer.tempoValue
    simp only [Analyzer.FFT_SIZE, Analyzer.HOP_LENGTH, hffb]
    rw [if_neg (by omega)]
    rw [min_eq_right (by omega)]
    rw [if_neg (by omega)]
  · intro other hlen
    rw [Analyzer.estimateTempo_eq, Analyzer.estimateTempo_eq, hlen]

/-- C10 (witness): the amended theorem applied to a concrete 2560-sample
buffer: the length hypothesis of the formula conjunct is discharged there,
and the unconditional invariance conjunct is instantiated with the all-ones
buffer of the same length. -/
theorem C10_tempo_content_independent_witness :
    Analyzer.FFT_SIZE + Analyzer.HOP_LENGTH ≤ (List.replicate 2560 (0 : ℝ)).length ∧
    Analyzer.estimateTempo (List.replicate 2560 (0 : ℝ)) 44100 =
      .ok (Analyzer.rclamp
        ((((List.replicate 2560 (0 : ℝ)).length - Analyzer.FFT_SIZE) / Analyzer.HOP_LENGTH + 1 : ℕ) /
          (((List.replicate 2560 (0 : ℝ)).length : ℝ) / (44100 : ℝ)) * 60) 40 200) ∧
    Analyzer.estimateTempo (List.replicate 2560 (1 : ℝ)) 44100 =
      Analyzer.estimateTempo (List.replicate 2560 (0 : ℝ)) 44100 :=
  ⟨by rw [List.length_replicate, Analyzer.FFT_SIZE, Analyzer.HOP_LENGTH],
   (C10_tempo_content_independent (List.replicate 2560 (0 : ℝ)) 44100).1
     (by rw [List.length_replicate, Analyzer.FFT_SIZE, Analyzer.HOP_LENGTH]),
   (C10_tempo_content_independent (List.replicate 2560 (0 : ℝ)) 44100).2
     (List.replicate 2560 (1 : ℝ)) (by rw [List.length_replicate, List.length_replicate])⟩

/-- C5 (counterexample): a non-empty 100-sample input fails with the
`AnalysisError` kind, not `InvalidAudio` as claimed. -/
theorem C5_counterexample_short_input_kind :
    Analyzer.analyzeFingerprint (List.replicate 100 (0 : ℝ)) 44100 =
      .error (.AnalysisError "Not enough samples for FFT") ∧
    ¬ ∃ msg, Analyzer.analyzeFingerprint (List.replicate 100 (0 : ℝ)) 44100 =
      .error (.InvalidAudio msg) := by
  have h : Analyzer.analyzeFingerprint (List.replicate 100 (0 : ℝ)) 44100 =
      .error (.AnalysisError "Not enough samples for FFT") := by
    rw [Analyzer.analyzeFingerprint, if_neg (replicate_nonempty 100 (by norm_num) 0)]
    rw [Analyzer.computeFFTSpectrum,
      if_pos (by rw [List.length_replicate, Analyzer.FFT_SIZE]; norm_num)]
  refine ⟨h, ?_⟩
  rintro ⟨msg, hmsg⟩
  rw [h] at hmsg
  simp at hmsg

/-- C5 (amended): every non-empty input shorter than `FFT_SIZE` fails with
the `AnalysisError` kind (the error produced by `compute_fft_spectrum`),
while the empty buffer alone fails with `InvalidAudio`. -/
theorem C5_short_input_error_kinds (samples : List ℝ) (sr : ℕ)
    (hne : samples ≠ []) (hlen : samples.length < Analyzer.FFT_SIZE) :
    Analyzer.analyzeFingerprint samples sr =
      .error (.AnalysisError "Not enough samples for FFT") ∧
    Analyzer.analyzeFingerprint [] sr = .error (.InvalidAudio "No samples to analyze") := by
  constructor
  · rw [Analyzer.analyzeFingerprint, if_neg hne]
    rw [Analyzer.computeFFTSpectrum, if_pos hlen]
  · rw [Analyzer.analyzeFingerprint, if_pos rfl]

/-- C5 (witness): the amended theorem applied to a concrete 7-sample buffer. -/
theorem C5_short_input_error_kinds_witness :
    (List.replicate 7 (0.25 : ℝ) ≠ [] ∧
      (List.replicate 7 (0.25 : ℝ)).length < Analyzer.FFT_SIZE) ∧
    (Analyzer.analyzeFingerprint (List.replicate 7 (0.25 : ℝ)) 48000 =
      .error (.AnalysisError "Not enough samples for FFT") ∧
    Analyzer.analyzeFingerprint [] 48000 = .error (.InvalidAudio "No samples to analyze")) :=
  ⟨⟨replicate_nonempty 7 (by norm_num) 0.25,
    by rw [List.length_replicate, Analyzer.FFT_SIZE]; norm_num⟩,
   C5_short_input_error_kinds (List.replicate 7 (0.25 : ℝ)) 48000
     (replicate_nonempty 7 (by norm_num) 0.25)
     (by rw [List.length_replicate, Analyzer.FFT_SIZE]; norm_num)⟩

/-- C7: the lufs output of `analyze_dynamics` is
`-0.691 + 10·log10(rms)` when `rms = √(mean(s²)) > 0` and `-120` when
`rms = 0` (the `if` branch), clamped into `[-120, 0]`. -/
theorem C7_lufs_formula (samples mag freqs : List ℝ) :
    ∃ c b, Analyzer.analyzeDynamics samples mag freqs =
      .ok (min (max (if 0 < Real.sqrt ((samples.map fun s => s * s).sum / (samples.length : ℝ))
          then -0.691 + 10 * Real.logb 10
            (Real.sqrt ((samples.map fun s => s * s).sum / (samples.length : ℝ)))
          else -120) (-120)) 0, c, b) ∧
      min (max (-120 : ℝ) (-120)) 0 = -120 :=
  ⟨Analyzer.rclamp (Analyzer.crestOf samples) 0 50,
   Analyzer.rclamp (Analyzer.bmrOf mag freqs) (-40) 40, rfl, by norm_num⟩

namespace FingerprintCompute

lemma foldl_max_replicate (n : ℕ) (a b : ℝ) (h : b ≤ a) :
    (List.replicate n b).foldl max a = a := by
  induction n with
  | zero => rfl
  | succ m ih => rw [List.replicate_succ, List.foldl_cons, max_eq_left h, ih]

lemma computeRms_impulse :
    computeRms ((1:ℝ) :: List.replicate 999999 0) = 1 / 1000 := by
  rw [computeRms, if_neg (List.cons_ne_nil _ _), List.map_cons, List.map_replicate,
    List.sum_cons, List.length_cons, List.length_replicate]
  rw [mul_zero, List.sum_replicate, smul_zero, one_mul, add_zero]
  rw [show ((999999 + 1 : ℕ) : ℝ) = 1000000 from by norm_num]
  rw [show (1 : ℝ) / 1000000 = (1/1000)^2 from by norm_num]
  exact Real.sqrt_sq (by norm_num)

lemma logb_ten_thousand : Real.logb 10 1000 = 3 := by
  rw [show (1000:ℝ) = 10 ^ (3:ℕ) from by norm_num, Real.logb, Real.log_pow, mul_div_assoc,
    div_self (ne_of_gt (Real.log_pos (by norm_num))), mul_one]
  norm_num

lemma crest_impulse :
    computeCrestFactor ((1:ℝ) :: List.replicate 999999 0) = 60 := by
  rw [computeCrestFactor, if_neg (List.cons_ne_nil _ _)]
  rw [computeRms_impulse]
  rw [List.map_cons, List.map_replicate, List.foldl_cons, abs_one, abs_zero,
    max_eq_right (by norm_num : (0:ℝ) ≤ 1), foldl_max_replicate _ _ _ (by norm_num)]
  rw [if_neg (by norm_num : ¬ (1:ℝ)/1000 < 1e-10), one_div_one_div, logb_ten_thousand]
  norm_num

lemma computeCompleteFingerprint_mono_crest (audio : List ℝ) (sr : ℕ) (h1 : audio ≠ [])
    (h2 : ¬ sr = 0) (h3 : ¬ (sr < 8000 ∨ 384000 < sr)) :
    ∃ fp, computeCompleteFingerprint audio sr 1 = .ok fp ∧
      fp.crest_db = computeCrestFactor audio := by
  rw [computeCompleteFingerprint, if_neg h1, if_neg h2, if_neg h3]
  exact ⟨_, rfl, rfl⟩

end FingerprintCompute

/-- C1 (counterexample): the claim asserts the simplified path
`compute_complete_fingerprint` keeps every field inside the same declared
ranges as the engine path; but its crest factor `20·log10(peak/rms)` is not
clamped, and the mono impulse of one million samples at 48 kHz yields
`crest_db = 60 dB`, outside the declared `[0, 50]` range. -/
theorem C1_counterexample_simplified_crest :
    ∃ fp, FingerprintCompute.computeCompleteFingerprint
        ((1:ℝ) :: List.replicate 999999 0) 48000 1 = .ok fp ∧
      fp.crest_db = 60 ∧ ¬ fp.crest_db ≤ 50 := by
  obtain ⟨fp, hfp, hc⟩ := FingerprintCompute.computeCompleteFingerprint_mono_crest
    ((1:ℝ) :: List.replicate 999999 0) 48000 (List.cons_ne_nil _ _) (by norm_num)
    (by norm_num)
  refine ⟨fp, hfp, ?_, ?_⟩
  · rw [hc, FingerprintCompute.crest_impulse]
  · rw [hc, FingerprintCompute.crest_impulse]
    norm_num

/-- C1 (amended): in the engine path, every successful `analyze_fingerprint`
output keeps all 25 fields inside the declared ranges of the data model
(band percentages in `[0, 100]`, `lufs` in `[-120, 0]`, `crest_db` in
`[0, 50]`, `bass_mid_ratio` in `[-40, 40]`, `tempo_bpm` in `[40, 200]`, the
unit-interval fields in `[0, 1]`, `loudness_variation_std` in `[0, 10]` and
`phase_correlation` in `[-1, 1]`); the simplified path does not share this
property. -/
theorem C1_engine_ranges (samples : List ℝ) (sr : ℕ) (hne : samples ≠ [])
    (hlen : Analyzer.FFT_SIZE ≤ samples.length) :
    ∃ fp, Analyzer.analyzeFingerprint samples sr = .ok fp ∧ declaredRanges fp := by
  obtain ⟨spec, hspec, hb, hfp⟩ :=
    Analyzer.analyzeFingerprint_ok samples sr hne (not_lt.2 hlen)
  obtain ⟨h1, h2, h3, h4, h5, h6⟩ := hb
  refine ⟨_, hfp, ?_⟩
  simp only [declaredRanges]
  exact ⟨Analyzer.bandPct_bounds _ _ _ _, Analyzer.bandPct_bounds _ _ _ _,
    Analyzer.bandPct_bounds _ _ _ _, Analyzer.bandPct_bounds _ _ _ _,
    Analyzer.bandPct_bounds _ _ _ _, Analyzer.bandPct_bounds _ _ _ _,
    Analyzer.bandPct_bounds _ _ _ _,
    ⟨rclamp_low _ _ _ (by norm_num), rclamp_high _ _ _⟩,
    ⟨rclamp_low _ _ _ (by norm_num), rclamp_high _ _ _⟩,
    ⟨rclamp_low _ _ _ (by norm_num), rclamp_high _ _ _⟩,
    ⟨rclamp_low _ _ _ (by norm_num), rclamp_high _ _ _⟩,
    Analyzer.rhythmStabilityOf_bounds _ _,
    Analyzer.transientDensityOf_bounds _ _,
    Analyzer.silenceRatioOf_bounds _,
    ⟨h1, h2⟩, ⟨h3, h4⟩, ⟨h5, h6⟩,
    ⟨minmax_low _ _ _ (by norm_num), minmax_high _ _ _⟩,
    ⟨minmax_low _ _ _ (by norm_num), minmax_high _ _ _⟩,
    ⟨minmax_low _ _ _ (by norm_num), minmax_high _ _ _⟩,
    ⟨minmax_low _ _ _ (by norm_num), minmax_high _ _ _⟩,
    ⟨minmax_low _ _ _ (by norm_num), minmax_high _ _ _⟩,
    ⟨minmax_low _ _ _ (by norm_num), minmax_high _ _ _⟩,
    by norm_num, by norm_num⟩

/-- C1 (witness): the engine-path range theorem applied to the concrete
2048-sample zero buffer at 44100 Hz. -/
theorem C1_engine_ranges_witness :
    List.replicate 2048 (0:ℝ) ≠ [] ∧
    Analyzer.FFT_SIZE ≤ (List.replicate 2048 (0:ℝ)).length ∧
    (∃ fp, Analyzer.analyzeFingerprint (List.replicate 2048 (0:ℝ)) 44100 = .ok fp ∧
      declaredRanges fp) :=
  ⟨replicate_nonempty 2048 (by norm_num) 0,
   by rw [List.length_replicate]; simp only [Analyzer.FFT_SIZE]; norm_num,
   C1_engine_ranges (List.replicate 2048 0) 44100 (replicate_nonempty 2048 (by norm_num) 0)
     (by rw [List.length_replicate]; simp only [Analyzer.FFT_SIZE]; norm_num)⟩

set_option maxRecDepth 100000 in
lemma bandBinCount_40960_sub_bass : Analyzer.bandBinCount 40960 20 60 = 2 := by decide

/-- C2 (counterexample): the claim asserts all seven band percentages are 0
for an all-zero buffer; but the zero spectrum is floored at `1e-10` in every
bin, so each band percentage equals `bins_in_band·100/2048`; at 40960 Hz the
sub-bass band `[20, 60)` holds bins 1 and 2, giving
`sub_bass_pct = 200/2048 ≠ 0` on the two-second zero buffer. -/
theorem C2_counterexample_nonzero_band :
    ∃ fp, Analyzer.analyzeFingerprint (List.replicate 81920 0) 40960 = .ok fp ∧
      fp.sub_bass_pct ≠ 0 := by
  obtain ⟨spec, hspec, hb, hfp⟩ := Analyzer.analyzeFingerprint_ok (List.replicate 81920 0)
    40960 (replicate_nonempty _ (by norm_num) 0)
    (by rw [List.length_replicate]; simp only [Analyzer.FFT_SIZE]; norm_num)
  refine ⟨_, hfp, ?_⟩
  show Analyzer.bandPct (Analyzer.fftFreqs 40960)
    (Analyzer.fftMagnitudes (List.replicate 81920 0)) 20 60 ≠ 0
  rw [Analyzer.fftMagnitudes_replicate_zero 81920 (by simp only [Analyzer.FFT_SIZE]; norm_num)]
  have hb1 := Analyzer.bandPct_replicate_eval 40960 20 60
  push_cast at hb1
  rw [hb1, bandBinCount_40960_sub_bass]
  norm_num

/-- C2 (amended): for an all-zero buffer of at least two seconds at any
supported rate, `analyze_fingerprint` yields `silence_ratio = 1`,
`lufs = -120`, `crest_db = 0`, `stereo_width = 0`, `phase_correlation = 1`;
the seven band percentages are not 0 but `bins_in_band·100/2048`, the
residue of the `1e-10` magnitude floor spread uniformly over the spectrum. -/
theorem C2_all_zero_fingerprint (n sr : ℕ) (hsr : 8000 ≤ sr) (hn : 2 * sr ≤ n) :
    ∃ fp, Analyzer.analyzeFingerprint (List.replicate n 0) sr = .ok fp ∧
      fp.silence_ratio = 1 ∧ fp.lufs = -120 ∧ fp.crest_db = 0 ∧
      fp.stereo_width = 0 ∧ fp.phase_correlation = 1 ∧
      fp.sub_bass_pct = (Analyzer.bandBinCount sr 20 60 : ℝ) * 100 / 2048 ∧
      fp.bass_pct = (Analyzer.bandBinCount sr 60 250 : ℝ) * 100 / 2048 ∧
      fp.low_mid_pct = (Analyzer.bandBinCount sr 250 500 : ℝ) * 100 / 2048 ∧
      fp.mid_pct = (Analyzer.bandBinCount sr 500 2000 : ℝ) * 100 / 2048 ∧
      fp.upper_mid_pct = (Analyzer.bandBinCount sr 2000 4000 : ℝ) * 100 / 2048 ∧
      fp.presence_pct = (Analyzer.bandBinCount sr 4000 6000 : ℝ) * 100 / 2048 ∧
      fp.air_pct = (Analyzer.bandBinCount sr 6000 20000 : ℝ) * 100 / 2048 := by
  have hne : List.replicate n (0:ℝ) ≠ [] := replicate_nonempty n (by omega) 0
  have hm : Analyzer.FFT_SIZE ≤ n := by
    simp only [Analyzer.FFT_SIZE]
    omega
  have hlen : ¬ (List.replicate n (0:ℝ)).length < Analyzer.FFT_SIZE := by
    rw [List.length_replicate]
    exact not_lt.2 hm
  obtain ⟨spec, hspec, hb, hfp⟩ := Analyzer.analyzeFingerprint_ok (List.replicate n 0) sr hne hlen
  refine ⟨_, hfp, ?_, ?_, ?_, rfl, rfl, ?_, ?_, ?_, ?_, ?_, ?_, ?_⟩
  · show Analyzer.silenceRatioOf (List.replicate n 0) = 1
    rw [Analyzer.silenceRatioOf, Analyzer.rmsOf_replicate_zero, if_neg (lt_irrefl 0)]
  · show Analyzer.rclamp (Analyzer.lufsOf (List.replicate n 0)) (-120) 0 = -120
    rw [Analyzer.lufsOf, Analyzer.rmsOf_replicate_zero, if_neg (lt_irrefl 0), Analyzer.rclamp]
    norm_num
  · show Analyzer.rclamp (Analyzer.crestOf (List.replicate n 0)) 0 50 = 0
    rw [Analyzer.crestOf, Analyzer.rmsOf_replicate_zero, if_neg (lt_irrefl 0), Analyzer.rclamp]
    norm_num
  · show Analyzer.bandPct (Analyzer.fftFreqs sr)
      (Analyzer.fftMagnitudes (List.replicate n 0)) 20 60 =
      (Analyzer.bandBinCount sr 20 60 : ℝ) * 100 / 2048
    rw [Analyzer.fftMagnitudes_replicate_zero n hm]
    have hb1 := Analyzer.bandPct_replicate_eval sr 20 60
    push_cast at hb1
    exact hb1
  · show Analyzer.bandPct (Analyzer.fftFreqs sr)
      (Analyzer.fftMagnitudes (List.replicate n 0)) 60 250 =
      (Analyzer.bandBinCount sr 60 250 : ℝ) * 100 / 2048
    rw [Analyzer.fftMagnitudes_replicate_zero n hm]
    have hb1 := Analyzer.bandPct_replicate_eval sr 60 250
    push_cast at hb1
    exact hb1
  · show Analyzer.bandPct (Analyzer.fftFreqs sr)
      (Analyzer.fftMagnitudes (List.replicate n 0)) 250 500 =
      (Analyzer.bandBinCount sr 250 500 : ℝ) * 100 / 2048
    rw [Analyzer.fftMagnitudes_replicate_zero n hm]
    have hb1 := Analyzer.bandPct_replicate_eval sr 250 500
    push_cast at hb1
    exact hb1
  · show Analyzer.bandPct (Analyzer.fftFreqs sr)
      (Analyzer.fftMagnitudes (List.replicate n 0)) 500 2000 =
      (Analyzer.bandBinCount sr 500 2000 : ℝ) * 100 / 2048
    rw [Analyzer.fftMagnitudes_replicate_zero n hm]
    have hb1 := Analyzer.bandPct_replicate_eval sr 500 2000
    push_cast at hb1
    exact hb1
  · show Analyzer.bandPct (Analyzer.fftFreqs sr)
      (Analyzer.fftMagnitudes (List.replicate n 0)) 2000 4000 =
      (Analyzer.bandBinCount sr 2000 4000 : ℝ) * 100 / 2048
    rw [Analyzer.fftMagnitudes_replicate_zero n hm]
    have hb1 := Analyzer.bandPct_replicate_eval sr 2000 4000
    push_cast at hb1
    exact hb1
  · show Analyzer.bandPct (Analyzer.fftFreqs sr)
      (Analyzer.fftMagnitudes (List.replicate n 0)) 4000 6000 =
      (Analyzer.bandBinCount sr 4000 6000 : ℝ) * 100 / 2048
    rw [Analyzer.fftMagnitudes_replicate_zero n hm]
    have hb1 := Analyzer.bandPct_replicate_eval sr 4000 6000
    push_cast at hb1
    exact hb1
  · show Analyzer.bandPct (Analyzer.fftFreqs sr)
      (Analyzer.fftMagnitudes (List.replicate n 0)) 6000 20000 =
      (Analyzer.bandBinCount sr 6000 20000 : ℝ) * 100 / 2048
    rw [Analyzer.fftMagnitudes_replicate_zero n hm]
    have hb1 := Analyzer.bandPct_replicate_eval sr 6000 20000
    push_cast at hb1
    exact hb1

/-- C2 (witness): the amended all-zero theorem applied to the two-second
zero buffer at 44100 Hz. -/
theorem C2_all_zero_fingerprint_witness :
    8000 ≤ 44100 ∧ 2 * 44100 ≤ 88200 ∧
    (∃ fp, Analyzer.analyzeFingerprint (List.replicate 88200 0) 44100 = .ok fp ∧
      fp.silence_ratio = 1 ∧ fp.lufs = -120 ∧ fp.crest_db = 0 ∧
      fp.stereo_width = 0 ∧ fp.phase_correlation = 1 ∧
      fp.sub_bass_pct = (Analyzer.bandBinCount 44100 20 60 : ℝ) * 100 / 2048 ∧
      fp.bass_pct = (Analyzer.bandBinCount 44100 60 250 : ℝ) * 100 / 2048 ∧
      fp.low_mid_pct = (Analyzer.bandBinCount 44100 250 500 : ℝ) * 100 / 2048 ∧
      fp.mid_pct = (Analyzer.bandBinCount 44100 500 2000 : ℝ) * 100 / 2048 ∧
      fp.upper_mid_pct = (Analyzer.bandBinCount 44100 2000 4000 : ℝ) * 100 / 2048 ∧
      fp.presence_pct = (Analyzer.bandBinCount 44100 4000 6000 : ℝ) * 100 / 2048 ∧
      fp.air_pct = (Analyzer.bandBinCount 44100 6000 20000 : ℝ) * 100 / 2048) :=
  ⟨by norm_num, by norm_num, C2_all_zero_fingerprint 88200 44100 (by norm_num) (by norm_num)⟩

/-- C8 (counterexample): the claim asserts the spectral defaults fire for
fewer than two STFT frames; but `compute_stft_spectral_analysis` defaults
only at zero frames: the 1024-sample zero buffer yields exactly one frame
(fewer than two) and the stats are computed from it, giving
`spectral_centroid = 1023/2048 ≠ 0.5`. -/
theorem C8_counterexample_one_frame_stats :
    ∃ r f : ℝ, Analyzer.computeStftSpectralAnalysis (List.replicate 1024 (0:ℝ)) 44100 =
        .ok (1023 / 2048, r, f) ∧
      (Analyzer.stftFrames (List.replicate 1024 (0:ℝ))).length = 1 ∧
      ((1023 : ℝ) / 2048) ≠ 0.5 := by
  refine ⟨Analyzer.rolloffLoop (List.replicate 1024 (1e-10:ℝ))
      (List.replicate 1024 (1e-10:ℝ)).sum 0 0,
    Analyzer.flatnessOf (List.replicate 1024 (1e-10:ℝ)), ?_, ?_, by norm_num⟩
  · rw [Analyzer.computeStftSpectralAnalysis,
      if_neg (by rw [Analyzer.stftFrames_1024, List.length_singleton]; norm_num),
      Analyzer.avgSpectrumOf_1024, Analyzer.analyzeSpectralStats,
      if_neg (replicate_nonempty _ (by simp only [Analyzer.FFT_SIZE]; norm_num) _),
      if_neg (by
        rw [List.sum_replicate, nsmul_eq_mul]
        simp only [Analyzer.FFT_SIZE]
        norm_num),
      show (Analyzer.FFT_SIZE / 2 : ℕ) = 1024 from by rw [Analyzer.FFT_SIZE],
      Analyzer.centroid_1024_val]
  · rw [Analyzer.stftFrames_1024, List.length_singleton]

/-- C8 (amended): the spectral defaults `(0.5, 0.5, 0.5)` fire exactly when
the aggregation yields zero frames, i.e. when the buffer is shorter than
`FFT_SIZE/2 = 1024` samples (with one full-or-partial frame the stats are
computed from it); for all such short buffers `estimate_tempo` also returns
its 120 BPM default. -/
theorem C8_zero_frame_defaults (samples : List ℝ) (sr : ℕ)
    (h : samples.length < Analyzer.FFT_SIZE / 2) :
    Analyzer.computeStftSpectralAnalysis samples sr = .ok (0.5, 0.5, 0.5) ∧
      Analyzer.estimateTempo samples sr = .ok 120 := by
  constructor
  · rw [Analyzer.computeStftSpectralAnalysis,
      if_pos (show (Analyzer.stftFrames samples).length = 0 from by
        rw [Analyzer.stftFrames, Analyzer.stftStarts_nil _ h]
        rfl)]
  · have h2 : samples.length / Analyzer.HOP_LENGTH < 2 := by
      simp only [Analyzer.FFT_SIZE] at h
      simp only [Analyzer.HOP_LENGTH]
      omega
    rw [Analyzer.estimateTempo, if_pos h2]

/-- C8 (witness): the zero-frame default theorem applied to a concrete
500-sample buffer. -/
theorem C8_zero_frame_defaults_witness :
    (List.replicate 500 (0.75:ℝ)).length < Analyzer.FFT_SIZE / 2 ∧
    (Analyzer.computeStftSpectralAnalysis (List.replicate 500 (0.75:ℝ)) 44100 =
        .ok (0.5, 0.5, 0.5) ∧
      Analyzer.estimateTempo (List.replicate 500 (0.75:ℝ)) 44100 = .ok 120) :=
  ⟨by rw [List.length_replicate]; simp only [Analyzer.FFT_SIZE]; norm_num,
   C8_zero_frame_defaults _ 44100
     (by rw [List.length_replicate]; simp only [Analyzer.FFT_SIZE]; norm_num)⟩
